import Mathlib

/-!
Verification of the frozenpeach-dev/core packet-forwarding engine.

This file gives a shallow embedding, in Lean 4, of the parts of the
repository that the verified claims are about:

* `src/src/core/state.rs`          — the `PacketState` enumeration;
* `src/src/hooks/hook_registry.rs` — `Hook`, `HookRegistry`,
  `run_hooks`, `run_failure_chain`, `can_execute`,
  `generate_exec_order`;
* `src/src/core/state_switcher.rs` — the per-packet task spawned by
  `StateSwitcher::start`;
* `src/src/utils/data.rs`          — `DataPool`, `RuntimeStorage`,
  `pool_sync`, `sync`, `get`, `store`;
* `src/src/core/message_type.rs`   — `DhcpOption`, `DhcpOptions` and
  the options-block parser `impl From<Vec<u8>> for DhcpOptions`.

Rust `HashMap`s are embedded as association lists, `Uuid`s and `u16`
ids as `Nat`, `isize` exit codes as `Int`, and `&'static str` error
payloads as `String`.  A Rust `panic!` (an `unwrap` of an error or an
out-of-bounds vector operation) is modelled as an explicit variant of
the relevant result type, distinct from an ordinary returned error.
-/

namespace FrozenCore

/-! ## Association-list helpers (embedding of HashMap lookup/insert) -/

/-- Lookup in an association list, first match wins
(embeds `HashMap::get`). -/
def lookupA {α β : Type} [DecidableEq α] (k : α) : List (α × β) → Option β
  | [] => none
  | e :: rest => if e.1 = k then some e.2 else lookupA k rest

/-- Key membership in an association list (embeds `HashMap::contains_key`). -/
def containsKeyA {α β : Type} [DecidableEq α] (k : α) (l : List (α × β)) : Bool :=
  (lookupA k l).isSome

/-- Insert-or-replace in an association list (embeds `HashMap::insert`). -/
def insertA {α β : Type} [DecidableEq α] : List (α × β) → α → β → List (α × β)
  | [], k, v => [(k, v)]
  | e :: rest, k, v => if e.1 = k then (k, v) :: rest else e :: insertA rest k v

/-! ## PacketState as declared in src/src/core/state.rs -/

/-- The `PacketState` enum exactly as declared in `src/src/core/state.rs`
(lines 4-11): only `Received`, `Prepared`, `PostPrepared`.  Note that this
declaration has no `Failure` variant, although `hook_registry.rs` and
`state_switcher.rs` both refer to `PacketState::Failure`. -/
inductive PacketState
  | Received
  | Prepared
  | PostPrepared
deriving DecidableEq

/-- Embedding of `enum_iterator::all::<PacketState>()` for the enum of
`state.rs`: iteration restarts from the beginning and yields the variants
in declaration order. -/
def PacketState.all : List PacketState :=
  [.Received, .Prepared, .PostPrepared]

/-- Modelled from the spec: the full packet-state set used by
`hook_registry.rs` and `state_switcher.rs`, which reference a
`PacketState::Failure` variant that is missing from the `PacketState`
declaration in `src/src/core/state.rs`.  The spec gives the canonical
ordering `Received -> Prepared -> PostPrepared` plus a distinguished
terminal `Failure` state. -/
inductive PacketStateFull
  | Received
  | Prepared
  | PostPrepared
  | Failure
deriving DecidableEq

/-- Modelled from the spec: `enum_iterator::all` over the full state set,
in declared order with the terminal `Failure` last. -/
def PacketStateFull.all : List PacketStateFull :=
  [.Received, .Prepared, .PostPrepared, .Failure]

/-- Modelled from the spec: `HookFlag` (the file `src/hooks/flags.rs` is
not part of the sources given under src/).  The only flag recognized by
the core is `Fatal`. -/
inductive HookFlag
  | Fatal
deriving DecidableEq

/-- `HookError` from `src/src/core/errors.rs`: a wrapper around a static
message string. -/
abbrev HookError := String

/-! ## PacketContext (src/src/core/packet.rs) -/

/-- `PacketContext` from `src/src/core/packet.rs`: current lifecycle
state, the read-only input packet and the output packet under
construction.  (The random `Uuid` and the creation timestamp play no
role in any claim and are omitted.) -/
structure PacketContext (T U : Type) where
  state : PacketStateFull
  input_packet : T
  output_packet : U
deriving DecidableEq

/-- `PacketContext::set_state`. -/
def PacketContext.set_state {T U : Type} (c : PacketContext T U)
    (new_state : PacketStateFull) : PacketContext T U :=
  { c with state := new_state }

/-! ## Hook and HookRegistry (src/src/hooks/hook_registry.rs) -/

/-- `Hook`: id, name, dependency map `hook_id -> needs_success`, flags,
and the execution closure.  The closure takes the mutable context and
returns `Result<isize, HookError>` together with the mutated context
(the `TypeMap` services argument is irrelevant to every claim and is
omitted). -/
structure Hook (T U : Type) where
  id : Nat
  name : String
  dependencies : List (Nat × Bool)
  flags : List HookFlag
  exec : PacketContext T U → Except HookError Int × PacketContext T U

/-- `HookRegistry`: per-state hook map, per-state precomputed execution
order, and the `need_update` bit. -/
structure HookRegistry (T U : Type) where
  registry : List (PacketStateFull × List (Hook T U))
  exec_order : List (PacketStateFull × List Nat)
  need_update : Bool

/-- `HookRegistry::can_execute` (hook_registry.rs lines 304-312):
a dependency blocks execution only when it has a recorded exit code of
the wrong polarity; a missing entry contributes
`Option::unwrap_or_default() = false`, i.e. it does not block. -/
def can_execute (exec_code : List (Nat × Int)) (dependencies : List (Nat × Bool)) : Bool :=
  ! dependencies.any (fun d =>
      match lookupA d.1 exec_code with
      | some z => (decide (z < 0) && d.2) || (decide (0 ≤ z) && !d.2)
      | none => false)

/-- `HookRegistry::run_failure_chain` (hook_registry.rs lines 291-302):
run every hook registered for the `Failure` state, swallowing their
errors; then always return an error.  If no hooks are registered for
`Failure` the `ok_or` fails first. -/
def run_failure_chain {T U : Type} (reg : HookRegistry T U)
    (packet : PacketContext T U) : PacketContext T U × Except HookError Unit :=
  match lookupA PacketStateFull.Failure reg.registry with
  | none => (packet, .error "No failure hooks defined")
  | some hooks =>
    let packet := hooks.foldl (fun p h => (h.exec p).2) packet
    (packet, .error "One or more fatal hooks was unsuccessful")

/-- Outcome of `run_hooks`: normal return, returned error, or a Rust
panic (an `unwrap` of an `Err`). -/
inductive RunOutcome
  | ok
  | err (e : HookError)
  | panic (e : HookError)
deriving DecidableEq

/-- The loop body of `HookRegistry::run_hooks` (hook_registry.rs lines
219-251).  For each id in the execution order: look the hook up in the
registry for the context's current state (skipping ids that resolve to
nothing), skip hooks that already have an exit code, run eligible hooks,
record exit codes, and on a failing `Fatal` hook run the failure chain
and `.unwrap()` its (always-`Err`) result, which panics. -/
def run_hooks_go {T U : Type} (reg : HookRegistry T U) :
    List Nat → List (Nat × Int) → PacketContext T U →
    PacketContext T U × RunOutcome
  | [], _, packet => (packet, .ok)
  | hid :: rest, exec_code, packet =>
    match lookupA packet.state reg.registry with
    | none => run_hooks_go reg rest exec_code packet
    | some hooks =>
      match hooks.find? (fun h => h.id = hid) with
      | none => run_hooks_go reg rest exec_code packet
      | some hook =>
        if containsKeyA hook.id exec_code then
          run_hooks_go reg rest exec_code packet
        else if can_execute exec_code hook.dependencies then
          match hook.exec packet with
          | (.ok x, p2) => run_hooks_go reg rest ((hook.id, x) :: exec_code) p2
          | (.error _, p2) =>
            if hook.flags.contains HookFlag.Fatal then
              match run_failure_chain reg p2 with
              | (p3, .error e) => (p3, .panic e)
              | (p3, .ok _) => run_hooks_go reg rest exec_code p3
            else
              run_hooks_go reg rest ((hook.id, -1) :: exec_code) p2
        else
          run_hooks_go reg rest exec_code packet

/-- The part of `run_hooks` after the `Failure`-state check: fetch the
precomputed order for the context's current state (absence means no
hooks, return `Ok(())`) and run the loop with an empty exit-code map. -/
def run_hooks_order {T U : Type} (reg : HookRegistry T U)
    (packet : PacketContext T U) : PacketContext T U × RunOutcome :=
  match lookupA packet.state reg.exec_order with
  | none => (packet, .ok)
  | some order => run_hooks_go reg order [] packet

/-- `HookRegistry::run_hooks` (hook_registry.rs lines 203-252). -/
def run_hooks {T U : Type} (reg : HookRegistry T U)
    (packet : PacketContext T U) : PacketContext T U × RunOutcome :=
  if reg.need_update then (packet, .err "Circular dependencies in hooks")
  else if packet.state = PacketStateFull.Failure then
    match run_failure_chain reg packet with
    | (p2, .error e) => (p2, .err e)
    | (p2, .ok _) => run_hooks_order reg p2
  else run_hooks_order reg packet

/-! ## generate_exec_order (hook_registry.rs lines 314-348) -/

/-- One round of ready-batch collection: all entries of the working map
whose unresolved-dependency list is empty, in map-iteration order. -/
def ready_hooks (deps_map : List (Nat × List Nat)) : List Nat :=
  (deps_map.filter (fun e => e.2.isEmpty)).map (fun e => e.1)

/-- One round of removal: delete the ready entries from the working map
and retain, in every remaining entry, only the dependencies that are not
ready (`deps.retain(|x| !ready_hooks.contains(x))`). -/
def kahn_step (deps_map : List (Nat × List Nat)) (ready : List Nat) :
    List (Nat × List Nat) :=
  (deps_map.filter (fun e => !ready.contains e.1)).map
    (fun e => (e.1, e.2.filter (fun d => !ready.contains d)))

/-- The `while !deps_map.is_empty()` loop of `generate_exec_order`:
repeatedly resolve and remove ready batches; if no entry is ready while
the map is non-empty, report circular dependencies. -/
def kahn_loop (deps_map : List (Nat × List Nat)) (resolved : List Nat) :
    Except HookError (List Nat) :=
  if hne : deps_map.isEmpty then .ok resolved
  else
    let ready := ready_hooks deps_map
    if hr : ready.isEmpty then .error "Circular dependencies in hooks"
    else kahn_loop (kahn_step deps_map ready) (resolved ++ ready)
termination_by deps_map.length
decreasing_by
  unfold kahn_step
  rw [List.length_map]
  rcases List.exists_mem_of_ne_nil (ready_hooks deps_map)
      (by simpa [List.isEmpty_iff] using hr) with ⟨r, hrm⟩
  have hrdm : ∃ e ∈ deps_map, e.1 = r := by
    simp only [ready_hooks, List.mem_map, List.mem_filter] at hrm
    rcases hrm with ⟨e, ⟨he, _⟩, hid⟩
    exact ⟨e, he, hid⟩
  rcases hrdm with ⟨e, he, hid⟩
  have hpx : (!(ready_hooks deps_map).contains e.1) = false := by
    simp [hid, List.elem_eq_mem, hrm]
  rcases Nat.lt_or_ge
      (List.length (deps_map.filter (fun e => !(ready_hooks deps_map).contains e.1)))
      deps_map.length with h | h
  · exact h
  · exfalso
    have heq := (List.filter_sublist deps_map).eq_of_length_le h
    have := List.filter_eq_self.mp heq e he
    rw [hpx] at this
    cases this

/-- `HookRegistry::generate_exec_order` (hook_registry.rs lines 314-348):
build the working map `id -> unresolved deps` from the hooks registered
for the state (failing when there are none) and run the resolution loop. -/
def generate_exec_order {T U : Type} (reg : HookRegistry T U)
    (for_state : PacketStateFull) : Except HookError (List Nat) :=
  match lookupA for_state reg.registry with
  | none => .error "No hooks associated with this state"
  | some hooks =>
    kahn_loop (hooks.map (fun h => (h.id, h.dependencies.map (fun d => d.1)))) []

/-! ### Dependency-graph predicates used to state the topological-sort
claim.  The graph of a working map has an edge from a hook to each of
its dependencies. -/

/-- Edge test: `d` is an unresolved dependency of `i` in the map. -/
def edgeB (deps_map : List (Nat × List Nat)) (i d : Nat) : Bool :=
  match lookupA i deps_map with
  | some ds => ds.contains d
  | none => false

/-- A walk along dependency edges. -/
def is_walk (deps_map : List (Nat × List Nat)) : List Nat → Bool
  | [] => true
  | [_] => true
  | x :: y :: rest => edgeB deps_map x y && is_walk deps_map (y :: rest)

/-- The dependency graph has a cycle: some non-trivial dependency walk
returns to its start. -/
def HasCycle (deps_map : List (Nat × List Nat)) : Prop :=
  ∃ i c, is_walk deps_map (i :: c ++ [i]) = true

/-- A rank (height) function witnessing acyclicity: every dependency of
a hook has strictly smaller rank. -/
def RankedAcyclic (deps_map : List (Nat × List Nat)) (rank : Nat → Nat) : Prop :=
  ∀ e ∈ deps_map, ∀ d ∈ e.2, rank d < rank e.1

/-- `d` occurs strictly before `i` in the list `ord`. -/
def Before (ord : List Nat) (d i : Nat) : Prop :=
  ∃ l1 l2, ord = l1 ++ l2 ∧ d ∈ l1 ∧ i ∈ l2

/-! ## The per-packet task of StateSwitcher::start
(src/src/core/state_switcher.rs lines 91-117) -/

/-- Result of one spawned per-packet task: the number of times the task
incremented the shared drop counter, the packet handed to
`output.send` (if the send point was reached), and whether the task
panicked (aborting it). -/
structure TaskResult (U : Type) where
  drops : Nat
  sent : Option U
  panicked : Bool
deriving DecidableEq

/-- The state list iterated by the task:
`enum_iterator::all::<PacketState>().filter(|x| *x != PacketState::Failure)`. -/
def switcher_states : List PacketStateFull :=
  PacketStateFull.all.filter (fun s => s ≠ PacketStateFull.Failure)

/-- The body of the task spawned per packet by `StateSwitcher::start`:
for each non-`Failure` state in declared order, set the context state
and run the hooks, incrementing the drop counter on an error (and
continuing with the next state); a panic inside `run_hooks` aborts the
task.  After the loop, consume the context, measure the serialized
length of the output packet, send it, and increment the drop counter
unless the send returned exactly that many bytes.  `toLen` embeds
`output_packet.to_raw_bytes().len()` and `send` embeds `output.send`
(`some n` for `Ok(n)`, `none` for `Err(_)`). -/
def packet_task_go {T U : Type} (reg : HookRegistry T U)
    (toLen : U → Nat) (send : U → Option Nat) :
    List PacketStateFull → PacketContext T U → Nat → TaskResult U
  | [], ctx, drops =>
    let output_packet := ctx.output_packet
    let bytes_len := toLen output_packet
    let success := match send output_packet with
      | some n => decide (n = bytes_len)
      | none => false
    if success then ⟨drops, some output_packet, false⟩
    else ⟨drops + 1, some output_packet, false⟩
  | st :: rest, ctx, drops =>
    if st = PacketStateFull.Failure then
      packet_task_go reg toLen send rest ctx drops
    else
      match run_hooks reg (ctx.set_state st) with
      | (ctx2, .ok) => packet_task_go reg toLen send rest ctx2 drops
      | (ctx2, .err _) => packet_task_go reg toLen send rest ctx2 (drops + 1)
      | (_, .panic _) => ⟨drops, none, true⟩

/-- The complete per-packet task (state_switcher.rs lines 91-117). -/
def packet_task {T U : Type} (reg : HookRegistry T U)
    (ctx : PacketContext T U) (toLen : U → Nat) (send : U → Option Nat) :
    TaskResult U :=
  packet_task_go reg toLen send switcher_states ctx 0

/-! ## RuntimeStorage and DataPool (src/src/utils/data.rs) -/

/-- `DataPool` (data.rs): display name, eviction filters, the in-memory
map `id -> entity`, and the SQL schema fragment. -/
structure DataPool (V : Type) where
  name : String
  filters : List (Nat → V → Bool)
  runtime : List (Nat × V)
  schema : String

/-- `RuntimeStorage` (data.rs): the pool map and the global index
`entity_id -> pool_name`.  (The pool map of the source is keyed by the
pool's name; lookups below search by `name`.) -/
structure RuntimeStorage (V : Type) where
  pools : List (DataPool V)
  index : List (Nat × String)

/-- The backend database state visible to the claims: for each table
name, the list of stored row ids. -/
abbrev Disk := List (String × List Nat)

/-- Fault injection for the abstract SQL backend: which operations of
`DbManager` return `Err` (`mysql::Error`) for which table. -/
structure DbOracle where
  select_fails : String → Bool
  insert_fails : String → Nat → Bool
  delete_fails : String → Bool

/-- The oracle under which every backend operation succeeds. -/
def honestOracle : DbOracle :=
  ⟨fun _ => false, fun _ _ => false, fun _ => false⟩

/-- Backend write operations issued during a sync pass. -/
inductive DbOp
  | insertRow (table : String) (id : Nat)
  | deleteRows (table : String) (ids : List Nat)
deriving DecidableEq

/-- Ids of a table on disk (`SELECT id FROM table`). -/
def disk_table (d : Disk) (t : String) : List Nat :=
  (lookupA t d).getD []

/-- Replace the contents of a table on disk. -/
def disk_set_table : Disk → String → List Nat → Disk
  | [], t, ids => [(t, ids)]
  | e :: rest, t, ids => if e.1 = t then (t, ids) :: rest else e :: disk_set_table rest t ids

/-- Effect on disk of `DbManager::insert` into table `t`. -/
def disk_insert (d : Disk) (t : String) (id : Nat) : Disk :=
  disk_set_table d t (disk_table d t ++ [id])

/-- Effect on disk of `DELETE FROM t WHERE id IN ( ids )`. -/
def disk_delete (d : Disk) (t : String) (ids : List Nat) : Disk :=
  disk_set_table d t ((disk_table d t).filter (fun i => !ids.contains i))

/-- `DataPool::purge`, one filter: collect the ids selected by the
filter, then remove them from the runtime map. -/
def purge_one {V : Type} (runtime : List (Nat × V)) (f : Nat → V → Bool) :
    List Nat × List (Nat × V) :=
  ((runtime.filter (fun e => f e.1 e.2)).map (fun e => e.1),
   runtime.filter (fun e => !f e.1 e.2))

/-- `DataPool::purge` over the filter list, accumulating removed ids. -/
def purge_go {V : Type} : List (Nat → V → Bool) → List (Nat × V) →
    List Nat × List (Nat × V)
  | [], rt => ([], rt)
  | f :: fs, rt =>
    let r1 := purge_one rt f
    let r2 := purge_go fs r1.2
    (r1.1 ++ r2.1, r2.2)

/-- `DataPool::purge` (data.rs): apply every filter in order, dropping
the selected entries; return the removed ids and the purged pool. -/
def DataPool.purge {V : Type} (p : DataPool V) : List Nat × DataPool V :=
  let r := purge_go p.filters p.runtime
  (r.1, { p with runtime := r.2 })

/-- Outcome of one pool pass: the new disk state and issued operations
on success; a returned `mysql::Error` (propagated by `?`); or a panic
(an `unwrap` inside the pass). -/
inductive PoolPass
  | ok (disk : Disk) (ops : List DbOp)
  | err (e : String) (disk : Disk) (ops : List DbOp)
  | panic (e : String)

/-- The insert loop of `RuntimeStorage::pool_sync`: for each id missing
from disk, look its pool name up in the global index
(`.unwrap()` panics when absent) and insert
(`db.insert(...).unwrap()` panics when the backend fails). -/
def insert_loop (oracle : DbOracle) (index : List (Nat × String)) :
    List Nat → Disk → List DbOp → Except String (Disk × List DbOp)
  | [], disk, ops => .ok (disk, ops)
  | id :: rest, disk, ops =>
    match lookupA id index with
    | none => .error "called unwrap on a missing index entry"
    | some tbl =>
      if oracle.insert_fails tbl id then .error "insert failed"
      else insert_loop oracle index rest (disk_insert disk tbl id)
        (ops ++ [.insertRow tbl id])

/-- `RuntimeStorage::pool_sync` (data.rs lines 145-174): read the disk
id set (propagating a SELECT failure), diff it against the runtime id
set, insert the new ids, and delete the deprecated ids with a single
statement when there are any. -/
def pool_sync {V : Type} (oracle : DbOracle) (index : List (Nat × String))
    (disk : Disk) (pool : DataPool V) : PoolPass :=
  if oracle.select_fails pool.name then .err "select failed" disk []
  else
    let disk_ids := (disk_table disk pool.name).dedup
    let runtime_ids := pool.runtime.map (fun e => e.1)
    let deprecated_ids := disk_ids.filter (fun i => !runtime_ids.contains i)
    let new_ids := runtime_ids.dedup.filter (fun i => !disk_ids.contains i)
    match insert_loop oracle index new_ids disk [] with
    | .error e => .panic e
    | .ok (disk2, ops) =>
      if deprecated_ids.isEmpty then .ok disk2 ops
      else if oracle.delete_fails pool.name then .err "delete failed" disk2 ops
      else .ok (disk_delete disk2 pool.name deprecated_ids)
        (ops ++ [.deleteRows pool.name deprecated_ids])

/-- Outcome of `RuntimeStorage::sync`: either a normal return with the
updated storage, disk and issued operations, or a panic. -/
inductive SyncOutcome (V : Type)
  | normal (σ : RuntimeStorage V) (disk : Disk) (ops : List DbOp)
  | panicked (e : String)

/-- `true` iff `sync` returned normally. -/
def SyncOutcome.isNormal {V : Type} : SyncOutcome V → Bool
  | .normal _ _ _ => true
  | .panicked _ => false

/-- The pool loop of `RuntimeStorage::sync`: run each pool's pass
(`self.pool_sync(pool).unwrap()` panics on a returned error), then purge
the pool, accumulating removed ids. -/
def sync_go {V : Type} (oracle : DbOracle) (index : List (Nat × String)) :
    List (DataPool V) → Disk → List (DataPool V) → List Nat → List DbOp →
    Except String (List (DataPool V) × Disk × List Nat × List DbOp)
  | [], disk, accPools, removed, ops => .ok (accPools, disk, removed, ops)
  | p :: rest, disk, accPools, removed, ops =>
    match pool_sync oracle index disk p with
    | .panic e => .error e
    | .err e _ _ => .error e
    | .ok disk2 ops2 =>
      let pr := p.purge
      sync_go oracle index rest disk2 (accPools ++ [pr.2]) (removed ++ pr.1) (ops ++ ops2)

/-- `RuntimeStorage::sync` (data.rs lines 223-236): run every pool pass
and purge, then remove the purged ids from the global index. -/
def sync {V : Type} (oracle : DbOracle) (σ : RuntimeStorage V) (disk : Disk) :
    SyncOutcome V :=
  match sync_go oracle σ.index σ.pools disk [] [] [] with
  | .error e => .panicked e
  | .ok (pools2, disk2, removed, ops) =>
    .normal ⟨pools2, σ.index.filter (fun e => !removed.contains e.1)⟩ disk2 ops

/-- Outcome of `RuntimeStorage::get`: the entity, a returned error
value, or a panic. -/
inductive GetResult (V : Type)
  | ok (v : V)
  | err (e : String)
  | panic
deriving DecidableEq

/-- Find a pool by name (`pools.get(pool_name)`; `add_pool` keys the
pool map by `pool.name()`). -/
def poolsFind {V : Type} (pools : List (DataPool V)) (pool_name : String) :
    Option (DataPool V) :=
  pools.find? (fun p => p.name = pool_name)

/-- `RuntimeStorage::get` (data.rs lines 131-142): `index.get(&uid).unwrap()`
panics when the id is not indexed; `pools.get(pool).unwrap()` panics when
the named pool is missing; otherwise `pool.get(uid)` is turned into a
returned error by `ok_or_else` when the entity is absent. -/
def RuntimeStorage.get {V : Type} (σ : RuntimeStorage V) (uid : Nat) : GetResult V :=
  match lookupA uid σ.index with
  | none => .panic
  | some pool_name =>
    match poolsFind σ.pools pool_name with
    | none => .panic
    | some pool =>
      match lookupA uid pool.runtime with
      | none => .err "No current data for given id..."
      | some v => .ok v

/-- The `Storable` trait operations that `store` and `insert` use. -/
structure StorableImpl (V : Type) where
  id : V → Nat
  set_uid : V → Nat → V

/-- `DataPool::insert` (data.rs lines 286-295): fail when the runtime
map already holds an entry for `data.id()`, otherwise insert and return
the id. -/
def DataPool.insert {V : Type} (S : StorableImpl V) (p : DataPool V) (data : V) :
    Except String Nat × DataPool V :=
  match lookupA (S.id data) p.runtime with
  | some _ => (.error "Id already in use", p)
  | none => (.ok (S.id data), { p with runtime := p.runtime ++ [(S.id data, data)] })

/-- Outcome of `RuntimeStorage::store`. -/
inductive StoreResult (V : Type)
  | ok (id : Nat) (σ : RuntimeStorage V)
  | err (e : String) (σ : RuntimeStorage V)
  | panic

/-- `RuntimeStorage::store` (data.rs lines 195-204): allocate a fresh
uid (`get_unused_id` draws random ids until one is absent from the
global index; the drawn value is the `uid` argument here, and callers
establish its freshness), look the pool up (`.unwrap()` panics when the
pool is missing), `set_uid` the data, register `uid -> pool.name()` in
the global index, and only then delegate to the pool's `insert`. -/
def RuntimeStorage.store {V : Type} (S : StorableImpl V) (σ : RuntimeStorage V)
    (data : V) (pool_name : String) (uid : Nat) : StoreResult V :=
  match poolsFind σ.pools pool_name with
  | none => .panic
  | some pool =>
    let data2 := S.set_uid data uid
    let index2 := insertA σ.index uid pool.name
    match DataPool.insert S pool data2 with
    | (.error e, _) => .err e ⟨σ.pools, index2⟩
    | (.ok id, pool2) =>
      .ok id ⟨σ.pools.map (fun q => if q.name = pool_name then pool2 else q), index2⟩

/-! ## DhcpOption and the options-block parser
(src/src/core/message_type.rs) -/

/-- The `DhcpOption` enum of message_type.rs.  Bytes are embedded as
`List Nat`. -/
inductive DhcpOption
  | Pad
  | End
  | SubnetMask (bytes : List Nat)
  | TimeOffset (bytes : List Nat)
  | RouterOption (bytes : List Nat)
  | TimeServer (bytes : List Nat)
  | NameServer (bytes : List Nat)
  | DomainNameServer (bytes : List Nat)
  | LogServer (bytes : List Nat)
  | CookieServer (bytes : List Nat)
  | LPRServer (bytes : List Nat)
  | ImpressServer (bytes : List Nat)
  | ResourceLocationServer (bytes : List Nat)
  | HostName (bytes : List Nat)
  | BootFileSize (bytes : List Nat)
  | MeritDump (bytes : List Nat)
  | DomainName (bytes : List Nat)
  | SwapServer (bytes : List Nat)
  | RootPath (bytes : List Nat)
  | ExtensionsPath (bytes : List Nat)
  | IPForwarding (bytes : List Nat)
  | NonLocalSourceRouting (bytes : List Nat)
  | PolicyFilter (bytes : List Nat)
  | MaximumDatagramReassemblySize (bytes : List Nat)
  | DefaultIpTTL (bytes : List Nat)
  | PathMTUAgingTimeout (bytes : List Nat)
  | PathMTUPlateauTable (bytes : List Nat)
  | InterfaceMTU (bytes : List Nat)
  | AllSubnetsAreLocal (bytes : List Nat)
  | BroadcastAddr (bytes : List Nat)
  | PerformMaskDiscovery (bytes : List Nat)
  | MaskSupplier (bytes : List Nat)
  | PerformRouterDiscovery (bytes : List Nat)
  | RouterSolicitationAddr (bytes : List Nat)
  | StaticRoute (bytes : List Nat)
  | TrailerEncapsulation (bytes : List Nat)
  | ARPCacheTimeout (bytes : List Nat)
  | EthernetEncapsulation (bytes : List Nat)
  | TcpDefaultTTL (bytes : List Nat)
  | TcpKeepAliveInterval (bytes : List Nat)
  | TcpKeepAliveGarbage (bytes : List Nat)
  | NetworkInformationServiceDomain (bytes : List Nat)
  | NetworkInformationServers (bytes : List Nat)
  | NetworkTimeProtocolServers (bytes : List Nat)
  | VendorSpecificInformation (bytes : List Nat)
  | NetBiosNS (bytes : List Nat)
  | NetBiosDatagramDistributionServer (bytes : List Nat)
  | NetBiosNodeType (bytes : List Nat)
  | NetBiosScope (bytes : List Nat)
  | XWindowFontServer (bytes : List Nat)
  | XWindowDisplayManager (bytes : List Nat)
  | NetworkInformationServicePlusDomain (bytes : List Nat)
  | NetworkInformationServicePlusServers (bytes : List Nat)
  | MobileIpHomeAgent (bytes : List Nat)
  | SMTPServer (bytes : List Nat)
  | POP3Server (bytes : List Nat)
  | NNTPServer (bytes : List Nat)
  | WWWServer (bytes : List Nat)
  | DefaultFingerServer (bytes : List Nat)
  | DefaultIRCServer (bytes : List Nat)
  | StreetTalkServer (bytes : List Nat)
  | STDAServer (bytes : List Nat)
  | RequestedIP (bytes : List Nat)
  | RequestedLeaseTime (bytes : List Nat)
  | OptionOverload (bytes : List Nat)
  | TFTPServerName (bytes : List Nat)
  | BootFileName (bytes : List Nat)
  | DHCPMessageType (bytes : List Nat)
  | ServerId (bytes : List Nat)
  | ParameterRequest (bytes : List Nat)
  | Message (bytes : List Nat)
  | MaximumDHCPMessageSize (bytes : List Nat)
  | RenewalTimeValue (bytes : List Nat)
  | RebindingTimeValue (bytes : List Nat)
  | VendorClassId (bytes : List Nat)
  | ClientId (bytes : List Nat)

/-- `DhcpOption::from(n, bytes)` of message_type.rs (named `fromCode`
because `from` is reserved in Lean): recognized codes build their
variant, 0 is `Pad`, 255 and every unknown code fold into `End`. -/
def DhcpOption.fromCode (n : Nat) (bytes : List Nat) : DhcpOption :=
  match n with
  | 0 => .Pad
  | 1 => .SubnetMask bytes
  | 2 => .TimeOffset bytes
  | 3 => .RouterOption bytes
  | 4 => .TimeServer bytes
  | 5 => .NameServer bytes
  | 6 => .DomainNameServer bytes
  | 7 => .LogServer bytes
  | 8 => .CookieServer bytes
  | 9 => .LPRServer bytes
  | 10 => .ImpressServer bytes
  | 11 => .ResourceLocationServer bytes
  | 12 => .HostName bytes
  | 13 => .BootFileSize bytes
  | 14 => .MeritDump bytes
  | 15 => .DomainName bytes
  | 16 => .SwapServer bytes
  | 17 => .RootPath bytes
  | 18 => .ExtensionsPath bytes
  | 19 => .IPForwarding bytes
  | 20 => .NonLocalSourceRouting bytes
  | 21 => .PolicyFilter bytes
  | 22 => .MaximumDatagramReassemblySize bytes
  | 23 => .DefaultIpTTL bytes
  | 24 => .PathMTUAgingTimeout bytes
  | 25 => .PathMTUPlateauTable bytes
  | 26 => .InterfaceMTU bytes
  | 27 => .AllSubnetsAreLocal bytes
  | 28 => .BroadcastAddr bytes
  | 29 => .PerformMaskDiscovery bytes
  | 30 => .MaskSupplier bytes
  | 31 => .PerformRouterDiscovery bytes
  | 32 => .RouterSolicitationAddr bytes
  | 33 => .StaticRoute bytes
  | 34 => .TrailerEncapsulation bytes
  | 35 => .ARPCacheTimeout bytes
  | 36 => .EthernetEncapsulation bytes
  | 37 => .TcpDefaultTTL bytes
  | 38 => .TcpKeepAliveInterval bytes
  | 39 => .TcpKeepAliveGarbage bytes
  | 40 => .NetworkInformationServiceDomain bytes
  | 41 => .NetworkInformationServers bytes
  | 42 => .NetworkTimeProtocolServers bytes
  | 43 => .VendorSpecificInformation bytes
  | 44 => .NetBiosNS bytes
  | 45 => .NetBiosDatagramDistributionServer bytes
  | 46 => .NetBiosNodeType bytes
  | 47 => .NetBiosScope bytes
  | 48 => .XWindowFontServer bytes
  | 49 => .XWindowDisplayManager bytes
  | 50 => .RequestedIP bytes
  | 51 => .RequestedLeaseTime bytes
  | 52 => .OptionOverload bytes
  | 53 => .DHCPMessageType bytes
  | 54 => .ServerId bytes
  | 55 => .ParameterRequest bytes
  | 56 => .Message bytes
  | 57 => .MaximumDHCPMessageSize bytes
  | 58 => .RenewalTimeValue bytes
  | 59 => .RebindingTimeValue bytes
  | 60 => .VendorClassId bytes
  | 61 => .ClientId bytes
  | 64 => .NetworkInformationServicePlusDomain bytes
  | 65 => .NetworkInformationServicePlusServers bytes
  | 66 => .TFTPServerName bytes
  | 67 => .BootFileName bytes
  | 68 => .MobileIpHomeAgent bytes
  | 69 => .SMTPServer bytes
  | 70 => .POP3Server bytes
  | 71 => .NNTPServer bytes
  | 72 => .WWWServer bytes
  | 73 => .DefaultFingerServer bytes
  | 74 => .DefaultIRCServer bytes
  | 75 => .StreetTalkServer bytes
  | 76 => .STDAServer bytes
  | 255 => .End
  | _ => .End

/-- `impl From<DhcpOption> for u8` of message_type.rs: the option code
of each variant. -/
def DhcpOption.code : DhcpOption → Nat
  | .Pad => 0
  | .SubnetMask _ => 1
  | .TimeOffset _ => 2
  | .RouterOption _ => 3
  | .TimeServer _ => 4
  | .NameServer _ => 5
  | .DomainNameServer _ => 6
  | .LogServer _ => 7
  | .CookieServer _ => 8
  | .LPRServer _ => 9
  | .ImpressServer _ => 10
  | .ResourceLocationServer _ => 11
  | .HostName _ => 12
  | .BootFileSize _ => 13
  | .MeritDump _ => 14
  | .DomainName _ => 15
  | .SwapServer _ => 16
  | .RootPath _ => 17
  | .ExtensionsPath _ => 18
  | .IPForwarding _ => 19
  | .NonLocalSourceRouting _ => 20
  | .PolicyFilter _ => 21
  | .MaximumDatagramReassemblySize _ => 22
  | .DefaultIpTTL _ => 23
  | .PathMTUAgingTimeout _ => 24
  | .PathMTUPlateauTable _ => 25
  | .InterfaceMTU _ => 26
  | .AllSubnetsAreLocal _ => 27
  | .BroadcastAddr _ => 28
  | .PerformMaskDiscovery _ => 29
  | .MaskSupplier _ => 30
  | .PerformRouterDiscovery _ => 31
  | .RouterSolicitationAddr _ => 32
  | .StaticRoute _ => 33
  | .TrailerEncapsulation _ => 34
  | .ARPCacheTimeout _ => 35
  | .EthernetEncapsulation _ => 36
  | .TcpDefaultTTL _ => 37
  | .TcpKeepAliveInterval _ => 38
  | .TcpKeepAliveGarbage _ => 39
  | .NetworkInformationServiceDomain _ => 40
  | .NetworkInformationServers _ => 41
  | .NetworkTimeProtocolServers _ => 42
  | .VendorSpecificInformation _ => 43
  | .NetBiosNS _ => 44
  | .NetBiosDatagramDistributionServer _ => 45
  | .NetBiosNodeType _ => 46
  | .NetBiosScope _ => 47
  | .XWindowFontServer _ => 48
  | .XWindowDisplayManager _ => 49
  | .RequestedIP _ => 50
  | .RequestedLeaseTime _ => 51
  | .OptionOverload _ => 52
  | .DHCPMessageType _ => 53
  | .ServerId _ => 54
  | .ParameterRequest _ => 55
  | .Message _ => 56
  | .MaximumDHCPMessageSize _ => 57
  | .RenewalTimeValue _ => 58
  | .RebindingTimeValue _ => 59
  | .VendorClassId _ => 60
  | .ClientId _ => 61
  | .NetworkInformationServicePlusDomain _ => 64
  | .NetworkInformationServicePlusServers _ => 65
  | .TFTPServerName _ => 66
  | .BootFileName _ => 67
  | .MobileIpHomeAgent _ => 68
  | .SMTPServer _ => 69
  | .POP3Server _ => 70
  | .NNTPServer _ => 71
  | .WWWServer _ => 72
  | .DefaultFingerServer _ => 73
  | .DefaultIRCServer _ => 74
  | .StreetTalkServer _ => 75
  | .STDAServer _ => 76
  | .End => 255

/-- `DhcpOptions` is a `HashMap<u8, DhcpOption>`; `DhcpOptions::add`
keys the option by its own code (`option.clone().try_into().unwrap()`,
an infallible conversion through `From<DhcpOption> for u8`). -/
def DhcpOptions.add (options : List (Nat × DhcpOption)) (option : DhcpOption) :
    List (Nat × DhcpOption) :=
  insertA options option.code option

/-- Result of the options-block parse: the option map, or a Rust panic
(an out-of-bounds `Vec::remove` or `Vec::drain`). -/
inductive ParseResult
  | ok (options : List (Nat × DhcpOption))
  | panic (msg : String)

/-- The `while data.len() > 0` loop of
`impl From<Vec<u8>> for DhcpOptions` (message_type.rs lines 325-343):
pop the code byte (0 skips, 255 terminates), pop the length byte
(`data.remove(0)` panics when no byte remains), drain the value
(`data.drain(0..len)` panics when fewer than `len` bytes remain), and
add the decoded option to the map. -/
def dhcp_options_go : List Nat → List (Nat × DhcpOption) → ParseResult
  | [], options => .ok options
  | code :: rest, options =>
    if code = 0 then dhcp_options_go rest options
    else if code = 255 then .ok options
    else
      match rest with
      | [] => .panic "removal index out of bounds"
      | len :: rest2 =>
        if rest2.length < len then .panic "drain range end out of bounds"
        else dhcp_options_go (rest2.drop len)
          (DhcpOptions.add options (DhcpOption.fromCode code (rest2.take len)))
termination_by data _ => data.length
decreasing_by
  all_goals simp_arith [List.length_drop]

/-- `impl From<Vec<u8>> for DhcpOptions`, starting from the empty map. -/
def dhcp_options_from (data : List Nat) : ParseResult :=
  dhcp_options_go data []

/-- `true` iff `RuntimeStorage::get` produced a returned error value
(as opposed to succeeding or panicking). -/
def GetResult.isErrValue {V : Type} : GetResult V → Bool
  | .err _ => true
  | _ => false

/-! ## Concrete instances used by the claim theorems -/

/-- A `Fatal` hook whose closure fails. -/
def c1_fatal_hook : Hook Nat Nat :=
  ⟨1, "fatal", [], [.Fatal], fun p => (.error "hook failure", p)⟩

/-- A failure-chain hook: it increments the output packet and then
itself fails (its error must be swallowed by the chain). -/
def c1_failure_hook : Hook Nat Nat :=
  ⟨9, "onfail", [], [],
    fun p => (.error "chain failure", { p with output_packet := p.output_packet + 1 })⟩

/-- Registry with the failing fatal hook on `Received` and one hook on
the failure chain. -/
def c1_registry : HookRegistry Nat Nat :=
  ⟨[(.Received, [c1_fatal_hook]), (.Failure, [c1_failure_hook])],
   [(.Received, [1])], false⟩

/-- A freshly received packet context. -/
def c1_ctx : PacketContext Nat Nat := ⟨.Received, 0, 0⟩

/-- Hook `Z` (id 3): always succeeds with exit code 0. -/
def c2_hook_z : Hook Nat Nat := ⟨3, "Z", [], [], fun p => (.ok 0, p)⟩

/-- Hook `Y` (id 2): requires the failure of `Z`, so it is skipped when
`Z` succeeds. -/
def c2_hook_y : Hook Nat Nat :=
  ⟨2, "Y", [(3, false)], [],
    fun p => (.ok 1, { p with output_packet := p.output_packet + 10 })⟩

/-- Hook `X` (id 1): requires the success of `Y`.  Since `Y` is skipped,
its exit code is never recorded. -/
def c2_hook_x : Hook Nat Nat :=
  ⟨1, "X", [(2, true)], [],
    fun p => (.ok 1, { p with output_packet := p.output_packet + 1 })⟩

/-- Registry for the skipped-dependency scenario, execution order
`[Z, Y, X]`. -/
def c2_registry : HookRegistry Nat Nat :=
  ⟨[(.Received, [c2_hook_z, c2_hook_y, c2_hook_x])], [(.Received, [3, 2, 1])], false⟩

/-- A freshly received packet context. -/
def c2_ctx : PacketContext Nat Nat := ⟨.Received, 0, 0⟩

/-- Hook `C` of the topological-order scenario (id 10, no
dependencies). -/
def c3_hook_c : Hook Nat Nat := ⟨10, "C", [], [], fun p => (.ok 1, p)⟩

/-- Hook `B` (id 11): `B.must(A)` and `B.must(C)`. -/
def c3_hook_b : Hook Nat Nat :=
  ⟨11, "B", [(12, true), (10, true)], [], fun p => (.ok 1, p)⟩

/-- Hook `A` (id 12): `A.must(C)`. -/
def c3_hook_a : Hook Nat Nat := ⟨12, "A", [(10, true)], [], fun p => (.ok 1, p)⟩

/-- The hooks `C`, `B`, `A` registered in that order. -/
def c3_hooks : List (Hook Nat Nat) := [c3_hook_c, c3_hook_b, c3_hook_a]

/-- Registry of the topological-order scenario. -/
def c3_registry : HookRegistry Nat Nat := ⟨[(.Received, c3_hooks)], [], true⟩

/-- A height function witnessing that the scenario's dependency graph
is acyclic. -/
def c3_rank : Nat → Nat := fun i => if i = 10 then 0 else if i = 12 then 1 else 2

/-- Two hooks depending on each other: a dependency cycle. -/
def c3_cyclic_hooks : List (Hook Nat Nat) :=
  [⟨20, "P", [(21, true)], [], fun p => (.ok 1, p)⟩,
   ⟨21, "Q", [(20, true)], [], fun p => (.ok 1, p)⟩]

/-- Registry holding the cyclic pair. -/
def c3_cyclic_registry : HookRegistry Nat Nat := ⟨[(.Received, c3_cyclic_hooks)], [], true⟩

/-- A registry whose `need_update` bit is set (the rebuild found
circular dependencies), so `run_hooks` returns an error at every
state. -/
def c4_registry : HookRegistry Nat Nat := ⟨[], [], true⟩

/-- A registry with no hooks and a clean `need_update` bit:
`run_hooks` succeeds as a no-op at every state. -/
def c4_empty_registry : HookRegistry Nat Nat := ⟨[], [], false⟩

/-- A context whose output packet is 7. -/
def c4_ctx : PacketContext Nat Nat := ⟨.Received, 0, 7⟩

/-- Serialized length of a `Nat` output packet in the switcher
examples: the packet value itself. -/
def c4_toLen : Nat → Nat := fun u => u

/-- An output port that reports exactly the serialized length back. -/
def c4_send_ok : Nat → Option Nat := fun u => some u

/-- A single pool holding the entity with id 1. -/
def c6_pool : DataPool Nat := ⟨"p", [], [(1, 0)], "(id INT)"⟩

/-- Storage with that one pool and a consistent global index. -/
def c6_storage : RuntimeStorage Nat := ⟨[c6_pool], [(1, "p")]⟩

/-- An oracle under which every `SELECT` fails. -/
def c6_oracle : DbOracle := ⟨fun _ => true, fun _ _ => false, fun _ => false⟩

/-- An initially empty table for the pool. -/
def c6_disk : Disk := [("p", [])]

/-- An eviction filter that selects every entry. -/
def c7_evict_all : Nat → Nat → Bool := fun _ _ => true

/-- A pool holding id 1 with the evict-everything filter. -/
def c7_pool : DataPool Nat := ⟨"p", [c7_evict_all], [(1, 0)], "(id INT)"⟩

/-- Storage with that pool and a consistent global index. -/
def c7_storage : RuntimeStorage Nat := ⟨[c7_pool], [(1, "p")]⟩

/-- An initially empty table for the pool. -/
def c7_disk : Disk := [("p", [])]

/-- The storage state after the first sync pass: the entry was purged
from the pool and from the index. -/
def c7_storage2 : RuntimeStorage Nat := ⟨[⟨"p", [c7_evict_all], [], "(id INT)"⟩], []⟩

/-- The disk state after the first sync pass: the id was inserted. -/
def c7_disk2 : Disk := [("p", [1])]

/-- A pool with no eviction filters holding the entity with id 1. -/
def c7b_pool : DataPool Nat := ⟨"p", [], [(1, 0)], "(id INT)"⟩

/-- Storage with the filterless pool and a consistent global index. -/
def c7b_storage : RuntimeStorage Nat := ⟨[c7b_pool], [(1, "p")]⟩

/-- An initially empty table for the filterless pool. -/
def c7b_disk : Disk := [("p", [])]

/-- An empty runtime storage. -/
def c9_storage : RuntimeStorage Nat := ⟨[], []⟩

/-- Storage for the `get` error case: id 5 is indexed to pool `p` but
absent from the pool runtime. -/
def c9_storage2 : RuntimeStorage Nat := ⟨[⟨"p", [], [], "s"⟩], [(5, "p")]⟩

/-- A `Storable` whose stored value is its own uid. -/
def c10_storable : StorableImpl Nat := ⟨fun v => v, fun _ u => u⟩

/-- A pool whose runtime already holds an entity under id 5. -/
def c10_pool : DataPool Nat := ⟨"p", [], [(5, 99)], "s"⟩

/-- Storage with that pool and an empty index, so the drawn uid 5 is
fresh for the index but collides inside the pool. -/
def c10_storage : RuntimeStorage Nat := ⟨[c10_pool], []⟩

/-! ## Shared lemmas -/

/-- Looking up a key right after inserting it yields the inserted
value. -/
theorem lookupA_insertA_self {β : Type} (l : List (Nat × β)) (k : Nat) (v : β) :
    lookupA k (insertA l k v) = some v := by
  induction l with
  | nil => simp [insertA, lookupA]
  | cons e rest ih =>
    by_cases he : e.1 = k
    · simp [insertA, he, lookupA]
    · simp [insertA, he, lookupA, ih]

/-- `containsKeyA` holds exactly when the lookup succeeds. -/
theorem containsKeyA_exists {β : Type} (l : List (Nat × β)) (k : Nat) :
    containsKeyA k l = true ↔ ∃ v, lookupA k l = some v := by
  simp [containsKeyA, Option.isSome_iff_exists]

theorem map_fst_filter_comm (l : List (Nat × List Nat)) (p : Nat → Bool) :
    (l.filter (fun e => p e.1)).map (fun e => e.1) = (l.map (fun e => e.1)).filter p := by
  induction l with
  | nil => rfl
  | cons e rest ih =>
    by_cases hp : p e.1 <;> simp [List.filter_cons, hp, ih]

theorem keys_kahn_step (cur : List (Nat × List Nat)) (ready : List Nat) :
    (kahn_step cur ready).map (fun e => e.1) =
      (cur.map (fun e => e.1)).filter (fun k => !ready.contains k) := by
  rw [kahn_step, List.map_map]
  have h1 : ((fun e : Nat × List Nat => e.1) ∘
      fun e : Nat × List Nat => (e.1, e.2.filter (fun d => !ready.contains d))) =
      (fun e : Nat × List Nat => e.1) := rfl
  rw [h1]
  exact map_fst_filter_comm cur (fun k => !ready.contains k)

theorem mem_kahn_step {cur : List (Nat × List Nat)} {ready : List Nat}
    {f : Nat × List Nat} :
    f ∈ kahn_step cur ready ↔
      ∃ e ∈ cur, (!ready.contains e.1) = true ∧
        f = (e.1, e.2.filter (fun d => !ready.contains d)) := by
  simp only [kahn_step, List.mem_map, List.mem_filter]
  constructor
  · rintro ⟨e, ⟨he, hp⟩, rfl⟩
    exact ⟨e, he, hp, rfl⟩
  · rintro ⟨e, he, hp, rfl⟩
    exact ⟨e, ⟨he, hp⟩, rfl⟩

theorem exists_min_rank (rank : Nat → Nat) :
    ∀ (l : List (Nat × List Nat)), l ≠ [] →
    ∃ e ∈ l, ∀ f ∈ l, rank e.1 ≤ rank f.1 := by
  intro l
  induction l with
  | nil => intro h; cases h rfl
  | cons e rest ih =>
    intro _
    by_cases hrest : rest = []
    · subst hrest
      exact ⟨e, List.mem_cons_self _ _, by
        intro f hf
        rcases List.mem_cons.mp hf with rfl | hf2
        · exact le_refl _
        · cases hf2⟩
    · rcases ih hrest with ⟨m, hm, hmin⟩
      by_cases hcmp : rank e.1 ≤ rank m.1
      · refine ⟨e, List.mem_cons_self _ _, ?_⟩
        intro f hf
        rcases List.mem_cons.mp hf with rfl | hf2
        · exact le_refl _
        · exact le_trans hcmp (hmin f hf2)
      · refine ⟨m, List.mem_cons_of_mem _ hm, ?_⟩
        intro f hf
        rcases List.mem_cons.mp hf with rfl | hf2
        · omega
        · exact hmin f hf2

theorem lookupA_some_mem {β : Type} {l : List (Nat × β)} {k : Nat} {v : β}
    (h : lookupA k l = some v) : (k, v) ∈ l := by
  induction l with
  | nil => cases h
  | cons e rest ih =>
    rw [lookupA] at h
    by_cases he : e.1 = k
    · rw [if_pos he] at h
      injection h with h2
      subst h2
      subst he
      exact List.mem_cons_self _ _
    · rw [if_neg he] at h
      exact List.mem_cons_of_mem _ (ih h)

theorem ready_eq_filter (cur : List (Nat × List Nat))
    (hnd : (cur.map (fun e => e.1)).Nodup) :
    (cur.map (fun e => e.1)).filter (fun k => (ready_hooks cur).contains k) =
      ready_hooks cur := by
  rw [← map_fst_filter_comm]
  rw [ready_hooks]
  congr 1
  apply List.filter_congr
  intro e he
  by_cases hp : e.2.isEmpty
  · rw [hp]
    simp only [List.elem_eq_mem, decide_eq_true_eq]
    simp only [ready_hooks, List.mem_map]
    exact ⟨e, List.mem_filter.mpr ⟨he, hp⟩, rfl⟩
  · have hp2 : e.2.isEmpty = false := by revert hp; cases e.2.isEmpty <;> simp
    rw [hp2]
    simp only [List.elem_eq_mem, decide_eq_false_iff_not]
    intro hmem
    simp only [ready_hooks, List.mem_map, List.mem_filter] at hmem
    rcases hmem with ⟨f, ⟨hf, hfe⟩, hfeq⟩
    have hfeqe : f = e := List.inj_on_of_nodup_map hnd hf he hfeq
    subst hfeqe
    rw [hp2] at hfe
    cases hfe

theorem kahn_step_len_lt (cur : List (Nat × List Nat))
    (h : ready_hooks cur ≠ []) :
    (kahn_step cur (ready_hooks cur)).length < cur.length := by
  unfold kahn_step
  rw [List.length_map]
  rcases List.exists_mem_of_ne_nil (ready_hooks cur) h with ⟨r, hrm⟩
  have hrdm : ∃ e ∈ cur, e.1 = r := by
    simp only [ready_hooks, List.mem_map, List.mem_filter] at hrm
    rcases hrm with ⟨e, ⟨he, _⟩, hid⟩
    exact ⟨e, he, hid⟩
  rcases hrdm with ⟨e, he, hid⟩
  have hpx : (!(ready_hooks cur).contains e.1) = false := by
    simp [hid, List.elem_eq_mem, hrm]
  rcases Nat.lt_or_ge
      (List.length (cur.filter (fun e => !(ready_hooks cur).contains e.1)))
      cur.length with hlt | hge
  · exact hlt
  · exfalso
    have heq := (List.filter_sublist cur).eq_of_length_le hge
    have := List.filter_eq_self.mp heq e he
    rw [hpx] at this
    cases this


theorem kahn_ok (rank : Nat → Nat) :
    ∀ (n : Nat) (cur : List (Nat × List Nat)) (resolved : List Nat),
    cur.length ≤ n →
    (cur.map (fun e => e.1)).Nodup →
    (∀ e ∈ cur, ∀ d ∈ e.2, rank d < rank e.1) →
    (∀ e ∈ cur, ∀ d ∈ e.2, d ∈ cur.map (fun e => e.1)) →
    ∃ tail, kahn_loop cur resolved = .ok (resolved ++ tail)
      ∧ tail.Perm (cur.map (fun e => e.1))
      ∧ ∀ e ∈ cur, ∀ d ∈ e.2, Before tail d e.1 := by
  intro n
  induction n with
  | zero =>
    intro cur resolved hlen _ _ _
    have hc : cur = [] := List.length_eq_zero.mp (Nat.le_zero.mp hlen)
    subst hc
    refine ⟨[], ?_, by simp, by simp⟩
    rw [kahn_loop.eq_def]
    simp
  | succ n ih =>
    intro cur resolved hlen hnd hrank hclosed
    by_cases hemp : cur = []
    · subst hemp
      refine ⟨[], ?_, by simp, by simp⟩
      rw [kahn_loop.eq_def]
      simp
    · rcases exists_min_rank rank cur hemp with ⟨m, hm, hmin⟩
      have hmdeps : m.2 = [] := by
        cases hd : m.2 with
        | nil => rfl
        | cons d ds =>
          exfalso
          have hdm : d ∈ m.2 := by rw [hd]; exact List.mem_cons_self _ _
          have hdlt : rank d < rank m.1 := hrank m hm d hdm
          have hdk : d ∈ cur.map (fun e => e.1) := hclosed m hm d hdm
          rcases List.mem_map.mp hdk with ⟨f, hf, hfd⟩
          have hle := hmin f hf
          rw [hfd] at hle
          omega
      have hmready : m.1 ∈ ready_hooks cur := by
        simp only [ready_hooks, List.mem_map]
        exact ⟨m, List.mem_filter.mpr ⟨hm, by simp [hmdeps]⟩, rfl⟩
      have hready_ne : ready_hooks cur ≠ [] := by
        intro h
        rw [h] at hmready
        cases hmready
      have hstep : kahn_loop cur resolved =
          kahn_loop (kahn_step cur (ready_hooks cur)) (resolved ++ ready_hooks cur) := by
        rw [kahn_loop.eq_def]
        simp [List.isEmpty_iff, hemp, hready_ne]
      have hlt := kahn_step_len_lt cur hready_ne
      have hlen2 : (kahn_step cur (ready_hooks cur)).length ≤ n := by omega
      have hkeys2 : (kahn_step cur (ready_hooks cur)).map (fun e => e.1) =
          (cur.map (fun e => e.1)).filter (fun k => !(ready_hooks cur).contains k) :=
        keys_kahn_step cur (ready_hooks cur)
      have hnd2 : ((kahn_step cur (ready_hooks cur)).map (fun e => e.1)).Nodup := by
        rw [hkeys2]
        exact hnd.filter _
      have hrank2 : ∀ e ∈ kahn_step cur (ready_hooks cur), ∀ d ∈ e.2, rank d < rank e.1 := by
        intro f hf d hd
        rcases mem_kahn_step.mp hf with ⟨e, he, hp, rfl⟩
        exact hrank e he d (List.mem_filter.mp hd).1
      have hclosed2 : ∀ e ∈ kahn_step cur (ready_hooks cur), ∀ d ∈ e.2,
          d ∈ (kahn_step cur (ready_hooks cur)).map (fun e => e.1) := by
        intro f hf d hd
        rcases mem_kahn_step.mp hf with ⟨e, he, hp, rfl⟩
        rcases List.mem_filter.mp hd with ⟨hde, hdnr⟩
        rw [hkeys2]
        exact List.mem_filter.mpr ⟨hclosed e he d hde, hdnr⟩
      rcases ih (kahn_step cur (ready_hooks cur)) (resolved ++ ready_hooks cur)
          hlen2 hnd2 hrank2 hclosed2 with ⟨tail2, heq2, hperm2, hbefore2⟩
      refine ⟨ready_hooks cur ++ tail2, ?_, ?_, ?_⟩
      · rw [hstep, heq2, List.append_assoc]
      · have hreadyf : (cur.map (fun e => e.1)).filter
            (fun k => (ready_hooks cur).contains k) = ready_hooks cur :=
          ready_eq_filter cur hnd
        have p1 : (ready_hooks cur ++ tail2).Perm
            (ready_hooks cur ++ (kahn_step cur (ready_hooks cur)).map (fun e => e.1)) :=
          List.Perm.append_left _ hperm2
        have p2 : ready_hooks cur ++ (kahn_step cur (ready_hooks cur)).map (fun e => e.1) =
            (cur.map (fun e => e.1)).filter (fun k => (ready_hooks cur).contains k) ++
            (cur.map (fun e => e.1)).filter (fun k => !(ready_hooks cur).contains k) := by
          rw [hreadyf, hkeys2]
        have p3 : ((cur.map (fun e => e.1)).filter (fun k => (ready_hooks cur).contains k) ++
            (cur.map (fun e => e.1)).filter
              (fun k => !(ready_hooks cur).contains k)).Perm (cur.map (fun e => e.1)) :=
          List.filter_append_perm _ _
        exact p1.trans (p2 ▸ p3)
      · intro e he d hd
        by_cases hq : (ready_hooks cur).contains e.1
        · exfalso
          simp only [List.elem_eq_mem, decide_eq_true_eq, ready_hooks,
            List.mem_map, List.mem_filter] at hq
          rcases hq with ⟨f, ⟨hf, hfe⟩, hfeq⟩
          have hfeqe : f = e := List.inj_on_of_nodup_map hnd hf he hfeq
          subst hfeqe
          rw [List.isEmpty_iff] at hfe
          rw [hfe] at hd
          cases hd
        · have hf2 : (e.1, e.2.filter (fun x => !(ready_hooks cur).contains x)) ∈
              kahn_step cur (ready_hooks cur) :=
            mem_kahn_step.mpr ⟨e, he, by simpa [List.elem_eq_mem] using hq, rfl⟩
          by_cases hdr : (ready_hooks cur).contains d
          · have he1k2 : e.1 ∈ (kahn_step cur (ready_hooks cur)).map (fun e => e.1) :=
              List.mem_map.mpr ⟨_, hf2, rfl⟩
            have he1t2 : e.1 ∈ tail2 := hperm2.mem_iff.mpr he1k2
            refine ⟨ready_hooks cur, tail2, rfl, ?_, he1t2⟩
            simpa [List.elem_eq_mem] using hdr
          · have hd2 : d ∈ e.2.filter (fun x => !(ready_hooks cur).contains x) :=
              List.mem_filter.mpr ⟨hd, by simpa [List.elem_eq_mem] using hdr⟩
            rcases hbefore2 _ hf2 d hd2 with ⟨l1, l2, hsplit, hdl1, hel2⟩
            refine ⟨ready_hooks cur ++ l1, l2, ?_, List.mem_append.mpr (Or.inr hdl1), hel2⟩
            rw [hsplit, List.append_assoc]


theorem walk_succ (G : List (Nat × List Nat)) :
    ∀ (l : List Nat) (last : Nat), is_walk G (l ++ [last]) = true →
    ∀ s ∈ l, ∃ d ∈ l ++ [last], edgeB G s d = true := by
  intro l
  induction l with
  | nil => intro last _ s hs; cases hs
  | cons x xs ih =>
    intro last hw s hs
    cases xs with
    | nil =>
      rcases List.mem_singleton.mp hs with rfl
      have hw2 : edgeB G s last = true ∧ is_walk G [last] = true := by
        have : is_walk G ([s] ++ [last]) = (edgeB G s last && is_walk G [last]) := rfl
        rw [this] at hw
        simpa using hw
      exact ⟨last, by simp, hw2.1⟩
    | cons y ys =>
      have hw2 : edgeB G x y = true ∧ is_walk G (y :: ys ++ [last]) = true := by
        have : is_walk G (x :: y :: ys ++ [last]) =
            (edgeB G x y && is_walk G (y :: ys ++ [last])) := rfl
        rw [this] at hw
        simpa using hw
      rcases List.mem_cons.mp hs with rfl | hs2
      · exact ⟨y, by simp, hw2.1⟩
      · rcases ih last hw2.2 s hs2 with ⟨d, hd, hedge⟩
        refine ⟨d, ?_, hedge⟩
        rcases List.mem_append.mp hd with hd1 | hd2
        · exact List.mem_append.mpr (Or.inl (List.mem_cons_of_mem _ hd1))
        · exact List.mem_append.mpr (Or.inr hd2)

theorem edgeB_entry {G : List (Nat × List Nat)} {s d : Nat}
    (h : edgeB G s d = true) : ∃ e ∈ G, e.1 = s ∧ d ∈ e.2 := by
  rw [edgeB] at h
  cases hl : lookupA s G with
  | none => rw [hl] at h; cases h
  | some ds =>
    rw [hl] at h
    refine ⟨(s, ds), lookupA_some_mem hl, rfl, ?_⟩
    simpa [List.elem_eq_mem] using h

theorem kahn_cycle :
    ∀ (n : Nat) (cur : List (Nat × List Nat)) (resolved : List Nat) (S : List Nat),
    cur.length ≤ n →
    (cur.map (fun e => e.1)).Nodup →
    S ≠ [] →
    (∀ s ∈ S, s ∈ cur.map (fun e => e.1)) →
    (∀ s ∈ S, ∃ d ∈ S, ∃ e ∈ cur, e.1 = s ∧ d ∈ e.2) →
    kahn_loop cur resolved = .error "Circular dependencies in hooks" := by
  intro n
  induction n with
  | zero =>
    intro cur resolved S hlen hnd hS hSk _
    have hc : cur = [] := List.length_eq_zero.mp (Nat.le_zero.mp hlen)
    subst hc
    rcases List.exists_mem_of_ne_nil S hS with ⟨s, hs⟩
    have := hSk s hs
    cases this
  | succ n ih =>
    intro cur resolved S hlen hnd hS hSk hSsucc
    have hemp : cur ≠ [] := by
      intro h
      subst h
      rcases List.exists_mem_of_ne_nil S hS with ⟨s, hs⟩
      have := hSk s hs
      cases this
    have hSnotready : ∀ s ∈ S, ¬(ready_hooks cur).contains s := by
      intro s hs hcont
      simp only [List.elem_eq_mem, decide_eq_true_eq, ready_hooks,
        List.mem_map, List.mem_filter] at hcont
      rcases hcont with ⟨f, ⟨hf, hfe⟩, hfeq⟩
      rcases hSsucc s hs with ⟨d, _, e, he, heq, hde⟩
      have hfeqe : f = e := List.inj_on_of_nodup_map hnd hf he (by rw [hfeq, heq])
      subst hfeqe
      rw [List.isEmpty_iff] at hfe
      rw [hfe] at hde
      cases hde
    by_cases hready : ready_hooks cur = []
    · rw [kahn_loop.eq_def]
      simp [List.isEmpty_iff, hemp, hready]
    · have hstep : kahn_loop cur resolved =
          kahn_loop (kahn_step cur (ready_hooks cur)) (resolved ++ ready_hooks cur) := by
        rw [kahn_loop.eq_def]
        simp [List.isEmpty_iff, hemp, hready]
      have hlt := kahn_step_len_lt cur hready
      have hlen2 : (kahn_step cur (ready_hooks cur)).length ≤ n := by omega
      have hkeys2 : (kahn_step cur (ready_hooks cur)).map (fun e => e.1) =
          (cur.map (fun e => e.1)).filter (fun k => !(ready_hooks cur).contains k) :=
        keys_kahn_step cur (ready_hooks cur)
      have hnd2 : ((kahn_step cur (ready_hooks cur)).map (fun e => e.1)).Nodup := by
        rw [hkeys2]
        exact hnd.filter _
      have hSk2 : ∀ s ∈ S, s ∈ (kahn_step cur (ready_hooks cur)).map (fun e => e.1) := by
        intro s hs
        rw [hkeys2]
        refine List.mem_filter.mpr ⟨hSk s hs, ?_⟩
        simpa [List.elem_eq_mem] using hSnotready s hs
      have hSsucc2 : ∀ s ∈ S, ∃ d ∈ S, ∃ e ∈ kahn_step cur (ready_hooks cur),
          e.1 = s ∧ d ∈ e.2 := by
        intro s hs
        rcases hSsucc s hs with ⟨d, hdS, e, he, heq, hde⟩
        have henr : (!(ready_hooks cur).contains e.1) = true := by
          rw [heq]
          simpa [List.elem_eq_mem] using hSnotready s hs
        refine ⟨d, hdS, (e.1, e.2.filter (fun x => !(ready_hooks cur).contains x)),
          mem_kahn_step.mpr ⟨e, he, henr, rfl⟩, heq, ?_⟩
        refine List.mem_filter.mpr ⟨hde, ?_⟩
        simpa [List.elem_eq_mem] using hSnotready d hdS
      rw [hstep]
      exact ih (kahn_step cur (ready_hooks cur)) (resolved ++ ready_hooks cur) S
        hlen2 hnd2 hS hSk2 hSsucc2

/-- If the SELECT of some pool in the list fails, the pool loop of
`sync` ends in an error (which `sync` turns into a panic). -/
theorem sync_go_not_ok_of_select_fails {V : Type} (oracle : DbOracle)
    (index : List (Nat × String)) :
    ∀ (pools : List (DataPool V)) (disk : Disk) (accPools : List (DataPool V))
      (removed : List Nat) (ops : List DbOp),
      (∃ p ∈ pools, oracle.select_fails p.name = true) →
      ∃ e, sync_go oracle index pools disk accPools removed ops = .error e := by
  intro pools
  induction pools with
  | nil => intro _ _ _ _ h; rcases h with ⟨p, hp, _⟩; cases hp
  | cons p rest ih =>
    intro disk accPools removed ops h
    by_cases hsel : oracle.select_fails p.name
    · refine ⟨"select failed", ?_⟩
      simp [sync_go, pool_sync, hsel]
    · rcases h with ⟨q, hq, hqsel⟩
      rcases List.mem_cons.mp hq with rfl | hq2
      · exact absurd hqsel hsel
      · cases hps : pool_sync oracle index disk p with
        | panic e => exact ⟨e, by simp [sync_go, hps]⟩
        | err e d o => exact ⟨e, by simp [sync_go, hps]⟩
        | ok disk2 ops2 =>
          rcases ih disk2 (accPools ++ [p.purge.2]) (removed ++ p.purge.1) (ops ++ ops2)
              ⟨q, hq2, hqsel⟩ with ⟨e, he⟩
          exact ⟨e, by simp [sync_go, hps, he]⟩

/-! ### Lemmas about the disk model and the sync pass -/

theorem lookupA_disk_set_self (d : Disk) (t : String) (ids : List Nat) :
    lookupA t (disk_set_table d t ids) = some ids := by
  induction d with
  | nil => simp [disk_set_table, lookupA]
  | cons e rest ih =>
    by_cases he : e.1 = t
    · simp [disk_set_table, he, lookupA]
    · simp [disk_set_table, he, lookupA, ih]

theorem lookupA_disk_set_other (d : Disk) (t u : String) (ids : List Nat)
    (hne : u ≠ t) : lookupA u (disk_set_table d t ids) = lookupA u d := by
  have htu : ¬(t = u) := fun h => hne h.symm
  induction d with
  | nil => simp [disk_set_table, lookupA, htu]
  | cons e rest ih =>
    by_cases he : e.1 = t
    · simp [disk_set_table, he, lookupA, htu]
    · by_cases heu : e.1 = u
      · simp [disk_set_table, he, lookupA, heu, hne]
      · simp [disk_set_table, he, lookupA, heu, ih]

theorem disk_table_set_self (d : Disk) (t : String) (ids : List Nat) :
    disk_table (disk_set_table d t ids) t = ids := by
  simp [disk_table, lookupA_disk_set_self]

theorem disk_table_set_other (d : Disk) (t u : String) (ids : List Nat)
    (hne : u ≠ t) : disk_table (disk_set_table d t ids) u = disk_table d u := by
  simp [disk_table, lookupA_disk_set_other _ _ _ _ hne]

theorem disk_table_insert_self (d : Disk) (t : String) (id : Nat) :
    disk_table (disk_insert d t id) t = disk_table d t ++ [id] := by
  rw [disk_insert, disk_table_set_self]

theorem disk_table_insert_other (d : Disk) (t u : String) (id : Nat)
    (hne : u ≠ t) : disk_table (disk_insert d t id) u = disk_table d u := by
  rw [disk_insert, disk_table_set_other _ _ _ _ hne]

theorem insert_loop_honest (index : List (Nat × String)) (t : String) :
    ∀ (ids : List Nat) (disk : Disk) (ops : List DbOp),
    (∀ id ∈ ids, lookupA id index = some t) →
    ∃ disk2, insert_loop honestOracle index ids disk ops =
        .ok (disk2, ops ++ ids.map (fun id => DbOp.insertRow t id))
      ∧ disk_table disk2 t = disk_table disk t ++ ids
      ∧ ∀ u, u ≠ t → disk_table disk2 u = disk_table disk u := by
  intro ids
  induction ids with
  | nil =>
    intro disk ops _
    exact ⟨disk, by simp [insert_loop], by simp, fun u _ => rfl⟩
  | cons id rest ih =>
    intro disk ops hidx
    have hid : lookupA id index = some t := hidx id (List.mem_cons_self _ _)
    rcases ih (disk_insert disk t id) (ops ++ [.insertRow t id])
        (fun i hi => hidx i (List.mem_cons_of_mem _ hi)) with ⟨disk2, heq, hself, hother⟩
    refine ⟨disk2, ?_, ?_, ?_⟩
    · have hfalse : honestOracle.insert_fails t id = false := rfl
      simp only [insert_loop, hid, hfalse, Bool.false_eq_true, if_false, heq]
      simp
    · rw [hself, disk_table_insert_self, List.append_assoc]
      rfl
    · intro u hu
      rw [hother u hu, disk_table_insert_other _ _ _ _ hu]


theorem pool_sync_honest {V : Type} (index : List (Nat × String)) (disk : Disk)
    (pool : DataPool V)
    (hidx : ∀ er ∈ pool.runtime, lookupA er.1 index = some pool.name) :
    ∃ disk2 ops, pool_sync honestOracle index disk pool = .ok disk2 ops
      ∧ (∀ id, id ∈ disk_table disk2 pool.name ↔ id ∈ pool.runtime.map (fun e => e.1))
      ∧ (∀ u, u ≠ pool.name → disk_table disk2 u = disk_table disk u)
      ∧ ((∀ id, id ∈ disk_table disk pool.name ↔ id ∈ pool.runtime.map (fun e => e.1)) →
          disk2 = disk ∧ ops = []) := by
  have hsel : honestOracle.select_fails pool.name = false := rfl
  have hdel : honestOracle.delete_fails pool.name = false := rfl
  set D := disk_table disk pool.name with hD
  set dids := D.dedup with hdids
  set rids := pool.runtime.map (fun e => e.1) with hrids
  set dep := dids.filter (fun i => !rids.contains i) with hdep
  set new := rids.dedup.filter (fun i => !dids.contains i) with hnew
  have hnewidx : ∀ id ∈ new, lookupA id index = some pool.name := by
    intro id hid
    have hmem : id ∈ rids := List.mem_dedup.mp (List.mem_filter.mp hid).1
    rcases List.mem_map.mp hmem with ⟨er, her, rfl⟩
    exact hidx er her
  rcases insert_loop_honest index pool.name new disk [] hnewidx with
    ⟨diskA, heqA, hselfA, hotherA⟩
  have hmemA : ∀ id, id ∈ disk_table diskA pool.name ↔ id ∈ D ∨ id ∈ new := by
    intro id
    rw [hselfA, ← hD, List.mem_append]
  by_cases hdepe : dep.isEmpty
  · have hdepnil : dep = [] := List.isEmpty_iff.mp hdepe
    have hdmem : ∀ i ∈ dids, i ∈ rids := by
      intro i hi
      have := List.filter_eq_nil_iff.mp hdepnil i hi
      simpa [List.elem_eq_mem] using this
    refine ⟨diskA, new.map (fun id => DbOp.insertRow pool.name id), ?_, ?_, ?_, ?_⟩
    · rw [pool_sync, hsel]
      simp only [Bool.false_eq_true, if_false]
      rw [← hD, ← hdids, ← hrids, ← hdep, ← hnew, heqA]
      simp only [List.nil_append, ← hdepnil]
      rw [if_pos hdepe]
    · intro id
      rw [hmemA]
      constructor
      · rintro (hidD | hidN)
        · exact hdmem id (List.mem_dedup.mpr hidD)
        · exact List.mem_dedup.mp (List.mem_filter.mp hidN).1
      · intro hidr
        by_cases hidd : id ∈ dids
        · exact Or.inl (List.mem_dedup.mp hidd)
        · refine Or.inr (List.mem_filter.mpr ⟨List.mem_dedup.mpr hidr, ?_⟩)
          simpa [List.elem_eq_mem] using hidd
    · exact hotherA
    · intro hsame
      have hnewnil : new = [] := by
        rw [hnew]
        apply List.filter_eq_nil_iff.mpr
        intro i hi
        have hir : i ∈ rids := List.mem_dedup.mp hi
        have hiD : i ∈ D := (hsame i).mpr hir
        simp [List.elem_eq_mem, List.mem_dedup.mpr hiD]
      rw [hnewnil] at heqA
      rw [insert_loop] at heqA
      injection heqA with h1
      injection h1 with h2 h3
      constructor
      · exact h2.symm
      · rw [hnewnil]
        rfl
  · have hdepne : dep ≠ [] := by
      intro h
      rw [h] at hdepe
      exact hdepe rfl
    have hdepmem : ∀ i ∈ dep, i ∉ rids := by
      intro i hi
      have := (List.mem_filter.mp hi).2
      simpa [List.elem_eq_mem] using this
    refine ⟨disk_delete diskA pool.name dep,
      new.map (fun id => DbOp.insertRow pool.name id) ++ [.deleteRows pool.name dep],
      ?_, ?_, ?_, ?_⟩
    · rw [pool_sync, hsel]
      simp only [Bool.false_eq_true, if_false]
      rw [← hD, ← hdids, ← hrids, ← hdep, ← hnew, heqA]
      simp only [List.nil_append]
      rw [if_neg hdepe, hdel]
      simp only [Bool.false_eq_true, if_false]
    · intro id
      rw [disk_delete]
      rw [show disk_table diskA pool.name = D ++ new from by rw [hselfA]]
      rw [disk_table_set_self]
      rw [List.mem_filter, List.mem_append]
      constructor
      · rintro ⟨hidD | hidN, hnd⟩
        · by_cases hir : id ∈ rids
          · exact hir
          · exfalso
            have hidep : id ∈ dep := by
              refine List.mem_filter.mpr ⟨List.mem_dedup.mpr hidD, ?_⟩
              simpa [List.elem_eq_mem] using hir
            simp [List.elem_eq_mem, hidep] at hnd
        · exact List.mem_dedup.mp (List.mem_filter.mp hidN).1
      · intro hidr
        have hndep : id ∉ dep := fun h => hdepmem id h hidr
        refine ⟨?_, by simpa [List.elem_eq_mem] using hndep⟩
        by_cases hidd : id ∈ dids
        · exact Or.inl (List.mem_dedup.mp hidd)
        · refine Or.inr (List.mem_filter.mpr ⟨List.mem_dedup.mpr hidr, ?_⟩)
          simpa [List.elem_eq_mem] using hidd
    · intro u hu
      rw [disk_delete, disk_table_set_other _ _ _ _ hu]
      exact hotherA u hu
    · intro hsame
      exfalso
      rcases List.exists_mem_of_ne_nil dep hdepne with ⟨i, hi⟩
      have hiD : i ∈ D := List.mem_dedup.mp (List.mem_filter.mp hi).1
      exact hdepmem i hi ((hsame i).mp hiD)


theorem sync_go_noop {V : Type} (index : List (Nat × String)) :
    ∀ (pools : List (DataPool V)) (disk : Disk) (accPools : List (DataPool V))
      (removed : List Nat) (ops : List DbOp),
      (∀ p ∈ pools, ∀ er ∈ p.runtime, lookupA er.1 index = some p.name) →
      (∀ p ∈ pools, ∀ id, id ∈ disk_table disk p.name ↔ id ∈ p.runtime.map (fun e => e.1)) →
      (∀ p ∈ pools, p.filters = []) →
      sync_go honestOracle index pools disk accPools removed ops =
        .ok (accPools ++ pools, disk, removed, ops) := by
  intro pools
  induction pools with
  | nil =>
    intro disk accPools removed ops _ _ _
    simp [sync_go]
  | cons p rest ih =>
    intro disk accPools removed ops hidx hsame hfil
    rcases pool_sync_honest index disk p (hidx p (List.mem_cons_self _ _)) with
      ⟨disk2, ops2, heqP, _, _, hnoop⟩
    obtain ⟨heqd, heqo⟩ := hnoop (hsame p (List.mem_cons_self _ _))
    rw [heqd, heqo] at heqP
    have hpfil : p.filters = [] := hfil p (List.mem_cons_self _ _)
    have hpurge : p.purge = ([], p) := by
      have h2 : purge_go p.filters p.runtime = ([], p.runtime) := by
        rw [hpfil]
        simp [purge_go]
      simp only [DataPool.purge, h2]
    have hp1 : p.purge.1 = ([] : List Nat) := by rw [hpurge]
    have hp2 : p.purge.2 = p := by rw [hpurge]
    rw [sync_go, heqP]
    show sync_go honestOracle index rest disk (accPools ++ [p.purge.2])
        (removed ++ p.purge.1) (ops ++ []) =
      Except.ok (accPools ++ p :: rest, disk, removed, ops)
    rw [hp1, hp2, List.append_nil, List.append_nil]
    rw [ih disk (accPools ++ [p]) removed ops
      (fun q hq => hidx q (List.mem_cons_of_mem _ hq))
      (fun q hq => hsame q (List.mem_cons_of_mem _ hq))
      (fun q hq => hfil q (List.mem_cons_of_mem _ hq))]
    rw [List.append_assoc]
    rfl

theorem sync_go_honest {V : Type} (index : List (Nat × String)) :
    ∀ (pools : List (DataPool V)) (disk : Disk) (accPools : List (DataPool V))
      (removed : List Nat) (ops : List DbOp),
      (∀ p ∈ pools, ∀ er ∈ p.runtime, lookupA er.1 index = some p.name) →
      (pools.map (fun p => p.name)).Nodup →
      ∃ pools2 disk2 removed2 ops2,
        sync_go honestOracle index pools disk accPools removed ops =
          .ok (pools2, disk2, removed2, ops2)
        ∧ (∀ p ∈ pools, ∀ id, id ∈ disk_table disk2 p.name ↔ id ∈ p.runtime.map (fun e => e.1))
        ∧ (∀ u, u ∉ pools.map (fun p => p.name) → disk_table disk2 u = disk_table disk u)
        ∧ ((∀ p ∈ pools, p.filters = []) →
            pools2 = accPools ++ pools ∧ removed2 = removed) := by
  intro pools
  induction pools with
  | nil =>
    intro disk accPools removed ops _ _
    exact ⟨accPools, disk, removed, ops, by simp [sync_go], by simp, fun _ _ => rfl,
      fun _ => ⟨by simp, rfl⟩⟩
  | cons p rest ih =>
    intro disk accPools removed ops hidx hnd
    rcases pool_sync_honest index disk p (hidx p (List.mem_cons_self _ _)) with
      ⟨diskP, opsP, heqP, hmemP, hotherP, _⟩
    rcases ih diskP (accPools ++ [p.purge.2]) (removed ++ p.purge.1) (ops ++ opsP)
        (fun q hq => hidx q (List.mem_cons_of_mem _ hq))
        (by
          rw [List.map_cons] at hnd
          exact hnd.of_cons) with
      ⟨pools2, disk3, removed2, ops3, heq3, hmem3, hother3, hnofil3⟩
    have hpname : p.name ∉ rest.map (fun p => p.name) := by
      rw [List.map_cons] at hnd
      exact (List.nodup_cons.mp hnd).1
    refine ⟨pools2, disk3, removed2, ops3, ?_, ?_, ?_, ?_⟩
    · rw [sync_go, heqP]
      exact heq3
    · intro q hq id
      rcases List.mem_cons.mp hq with rfl | hq2
      · rw [hother3 q.name hpname]
        exact hmemP id
      · exact hmem3 q hq2 id
    · intro u hu
      rw [List.map_cons, List.mem_cons] at hu
      push_neg at hu
      rw [hother3 u hu.2]
      exact hotherP u hu.1
    · intro hfil
      have hpfil : p.filters = [] := hfil p (List.mem_cons_self _ _)
      have hpurge : p.purge = ([], p) := by
        have h2 : purge_go p.filters p.runtime = ([], p.runtime) := by
          rw [hpfil]
          simp [purge_go]
        simp only [DataPool.purge, h2]
      rcases hnofil3 (fun q hq => hfil q (List.mem_cons_of_mem _ hq)) with ⟨hp2, hr2⟩
      rw [hpurge] at hp2 hr2
      constructor
      · rw [hp2, List.append_assoc]
        rfl
      · rw [hr2]
        simp


/-! ## Claim theorems -/

/-- C1: the claim says a failing `Fatal` hook transitions the context to
`Failure`, runs the failure chain with its errors swallowed, and makes
`run_hooks` return a single `FatalHookFailed` error.  The code instead
calls `.unwrap()` on `run_failure_chain`, whose result is always `Err`,
so `run_hooks` panics; and it never sets the context state to `Failure`.
This theorem evaluates the code at the failing input: the failure-chain
hook did run (the output packet was incremented, its own error
swallowed), the context state is still `Received`, and the outcome is a
panic, not a returned error. -/
theorem c1_fatal_hook_failure_panics :
    run_hooks c1_registry c1_ctx =
      (⟨.Received, 0, 1⟩, .panic "One or more fatal hooks was unsuccessful") := by
  decide

/-- C2 counterexample: hook `X` (id 1) depends on the success of hook
`Y` (id 2), and `Y` is skipped (its own failure-dependency on `Z` is
unmet), so `Y` has no recorded exit code.  The claim says `X` must then
be skipped; the code executes `X` (the output packet changes from 0 to
1) because `can_execute` treats a missing exit code as satisfied. -/
theorem c2_skipped_dependency_counterexample :
    run_hooks c2_registry c2_ctx = (⟨.Received, 0, 1⟩, .ok)
    ∧ (run_hooks c2_registry c2_ctx).1.output_packet ≠ c2_ctx.output_packet := by
  decide

/-- C2 amended: during `run_hooks` a hook is eligible iff every
dependency with a *recorded* exit code matches the required polarity
(non-negative for a success dependency, negative for a failure
dependency); a dependency with no recorded exit code — one that was
skipped or never ran — does not block execution, so such a hook is
executed, not skipped. -/
theorem c2_eligibility_amended :
    ∀ (exec_code : List (Nat × Int)) (deps : List (Nat × Bool)),
    can_execute exec_code deps = true ↔
      ∀ d ∈ deps, ∀ z : Int, lookupA d.1 exec_code = some z →
        ((d.2 = true → 0 ≤ z) ∧ (d.2 = false → z < 0)) := by
  intro exec_code deps
  simp only [can_execute, Bool.not_eq_true', List.any_eq_false]
  constructor
  · intro h d hd z hz
    have hblock := h d hd
    rw [hz] at hblock
    by_cases hb : d.2 = true
    · rw [hb] at hblock
      simp at hblock
      refine ⟨fun _ => by omega, fun hf => ?_⟩
      rw [hb] at hf; cases hf
    · have hb2 : d.2 = false := by revert hb; cases d.2 <;> simp
      rw [hb2] at hblock
      simp at hblock
      refine ⟨fun ht => ?_, fun _ => by omega⟩
      rw [hb2] at ht; cases ht
  · intro h d hd
    cases hz : lookupA d.1 exec_code with
    | none => simp
    | some z =>
      have hdz := h d hd z hz
      by_cases hb : d.2 = true
      · have h0 : 0 ≤ z := hdz.1 hb
        rw [hb]
        simp
        omega
      · have hb2 : d.2 = false := by revert hb; cases d.2 <;> simp
        have h0 : z < 0 := hdz.2 hb2
        rw [hb2]
        simp
        omega

/-- C2 amended, witness: the eligibility rule evaluated at a concrete
exit-code map and dependency list. -/
theorem c2_eligibility_amended_witness :
    ∀ d ∈ [((3 : Nat), true)], ∀ z : Int, lookupA d.1 [((3 : Nat), (2 : Int))] = some z →
      ((d.2 = true → 0 ≤ z) ∧ (d.2 = false → z < 0)) :=
  (c2_eligibility_amended [((3 : Nat), (2 : Int))] [((3 : Nat), true)]).mp (by decide)

/-- C3: for every set of hooks registered for a state (with distinct
ids and dependencies among the registered hooks), if the dependency
graph is acyclic (witnessed by a height function) then
`generate_exec_order` returns an order that is a permutation of the
registered hook ids — each id exactly once — in which every hook appears
strictly after every hook listed in its dependency map; if the graph has
a cycle it returns the `Circular dependencies in hooks` error.
Moreover, registering `C`, `B`, `A` (ids 10, 11, 12, in that order) with
`B.must(A)`, `A.must(C)`, `B.must(C)` yields the order `[C, A, B]`. -/
theorem c3_generate_exec_order_topological :
    (∀ (T U : Type) (reg : HookRegistry T U) (st : PacketStateFull)
      (hooks : List (Hook T U)),
      lookupA st reg.registry = some hooks →
      (hooks.map (fun h => h.id)).Nodup →
      (∀ h ∈ hooks, ∀ d ∈ h.dependencies, d.1 ∈ hooks.map (fun h => h.id)) →
      ((∃ rank, RankedAcyclic
          (hooks.map (fun h => (h.id, h.dependencies.map (fun d => d.1)))) rank) →
        ∃ ord, generate_exec_order reg st = .ok ord
          ∧ ord.Perm (hooks.map (fun h => h.id))
          ∧ ∀ h ∈ hooks, ∀ d ∈ h.dependencies, Before ord d.1 h.id)
      ∧ (HasCycle (hooks.map (fun h => (h.id, h.dependencies.map (fun d => d.1)))) →
        generate_exec_order reg st = .error "Circular dependencies in hooks"))
    ∧ generate_exec_order c3_registry .Received = .ok [10, 12, 11] := by
  constructor
  · intro T U reg st hooks hlook hnd hdeps
    have hkeysG : (hooks.map (fun h => (h.id, h.dependencies.map (fun d => d.1)))).map
        (fun e => e.1) = hooks.map (fun h => h.id) := by
      rw [List.map_map]
      rfl
    have hGnd : ((hooks.map (fun h => (h.id, h.dependencies.map (fun d => d.1)))).map
        (fun e => e.1)).Nodup := by rw [hkeysG]; exact hnd
    have hGclosed : ∀ e ∈ hooks.map (fun h => (h.id, h.dependencies.map (fun d => d.1))),
        ∀ d ∈ e.2, d ∈ (hooks.map (fun h => (h.id, h.dependencies.map (fun d => d.1)))).map
          (fun e => e.1) := by
      intro e he d hd
      rcases List.mem_map.mp he with ⟨h, hh, rfl⟩
      rcases List.mem_map.mp hd with ⟨dep, hdep, rfl⟩
      rw [hkeysG]
      exact hdeps h hh dep hdep
    have hgen : generate_exec_order reg st =
        kahn_loop (hooks.map (fun h => (h.id, h.dependencies.map (fun d => d.1)))) [] := by
      rw [generate_exec_order, hlook]
    constructor
    · rintro ⟨rank, hra⟩
      have hra2 : ∀ e ∈ hooks.map (fun h => (h.id, h.dependencies.map (fun d => d.1))),
          ∀ d ∈ e.2, rank d < rank e.1 := hra
      rcases kahn_ok rank
          (hooks.map (fun h => (h.id, h.dependencies.map (fun d => d.1)))).length
          (hooks.map (fun h => (h.id, h.dependencies.map (fun d => d.1)))) []
          (le_refl _) hGnd hra2 hGclosed with ⟨tail, heq, hperm, hbefore⟩
      refine ⟨tail, ?_, ?_, ?_⟩
      · rw [hgen, heq, List.nil_append]
      · rw [hkeysG] at hperm
        exact hperm
      · intro h hh d hd
        exact hbefore _ (List.mem_map.mpr ⟨h, hh, rfl⟩) d.1
          (List.mem_map.mpr ⟨d, hd, rfl⟩)
    · rintro ⟨i, c, hw⟩
      have hwalk : is_walk (hooks.map (fun h => (h.id, h.dependencies.map (fun d => d.1))))
          ((i :: c) ++ [i]) = true := by
        rw [List.cons_append]
        exact hw
      have hsucc := walk_succ _ (i :: c) i hwalk
      have hSsucc : ∀ s ∈ i :: c, ∃ d ∈ i :: c,
          ∃ e ∈ hooks.map (fun h => (h.id, h.dependencies.map (fun d => d.1))),
            e.1 = s ∧ d ∈ e.2 := by
        intro s hs
        rcases hsucc s hs with ⟨d, hd, hedge⟩
        rcases edgeB_entry hedge with ⟨e, he, heq, hde⟩
        refine ⟨d, ?_, e, he, heq, hde⟩
        rcases List.mem_append.mp hd with hd1 | hd2
        · exact hd1
        · rcases List.mem_singleton.mp hd2 with rfl
          exact List.mem_cons_self _ _
      have hSk : ∀ s ∈ i :: c, s ∈ (hooks.map
          (fun h => (h.id, h.dependencies.map (fun d => d.1)))).map (fun e => e.1) := by
        intro s hs
        rcases hSsucc s hs with ⟨d, _, e, he, heq, _⟩
        exact List.mem_map.mpr ⟨e, he, heq⟩
      have herr := kahn_cycle
        (hooks.map (fun h => (h.id, h.dependencies.map (fun d => d.1)))).length
        (hooks.map (fun h => (h.id, h.dependencies.map (fun d => d.1)))) [] (i :: c)
        (le_refl _) hGnd (by simp) hSk hSsucc
      rw [hgen, herr]
  · simp only [generate_exec_order, c3_registry, lookupA]
    norm_num [c3_hooks, c3_hook_c, c3_hook_b, c3_hook_a]
    rw [kahn_loop.eq_def]
    norm_num [ready_hooks, kahn_step]
    rw [kahn_loop.eq_def]
    norm_num [ready_hooks, kahn_step]
    rw [kahn_loop.eq_def]
    norm_num [ready_hooks, kahn_step]
    rw [kahn_loop.eq_def]
    norm_num

/-- C3 witness: the acyclic branch applied to the concrete `C`, `B`,
`A` scenario, and the cycle branch applied to a two-hook dependency
cycle. -/
theorem c3_generate_exec_order_topological_witness :
    (∃ ord, generate_exec_order c3_registry .Received = .ok ord
      ∧ ord.Perm (c3_hooks.map (fun h => h.id))
      ∧ ∀ h ∈ c3_hooks, ∀ d ∈ h.dependencies, Before ord d.1 h.id)
    ∧ generate_exec_order c3_cyclic_registry .Received =
        .error "Circular dependencies in hooks" :=
  ⟨(c3_generate_exec_order_topological.1 Nat Nat c3_registry .Received c3_hooks rfl (by decide) (by decide)).1
      ⟨c3_rank, by unfold RankedAcyclic; decide⟩,
   (c3_generate_exec_order_topological.1 Nat Nat c3_cyclic_registry .Received c3_cyclic_hooks rfl (by decide)
      (by decide)).2 ⟨20, [21], by decide⟩⟩

/-- C4 counterexample: with circular dependencies pending
(`need_update`), `run_hooks` returns an error for every one of the three
dispatched states.  The claim says the drop counter is incremented
exactly once and the packet is not sent; the code increments the counter
three times, keeps dispatching the remaining states, and still sends the
output packet. -/
theorem c4_error_continues_counterexample :
    packet_task c4_registry c4_ctx c4_toLen c4_send_ok = ⟨3, some 7, false⟩
    ∧ (packet_task c4_registry c4_ctx c4_toLen c4_send_ok).drops ≠ 1
    ∧ (packet_task c4_registry c4_ctx c4_toLen c4_send_ok).sent ≠ none := by
  decide

/-- C4 amended: in the per-packet task, an error from `run_hooks`
increments the drop counter once for that state but does not stop the
packet: the remaining states are dispatched and the output packet is
still sent.  When the lifecycle completes, the output is sent and the
counter is additionally incremented iff the send errs or returns a byte
count different from the serialized length.  Branch one: a registry with
pending circular dependencies errs at all 3 states, yet the output is
sent; branch two: a registry with no precomputed orders succeeds at all
states, and only the send check can increment the counter. -/
theorem c4_drop_counting_amended :
    ∀ (T U : Type) (reg : HookRegistry T U) (ctx : PacketContext T U)
    (toLen : U → Nat) (send : U → Option Nat),
    (reg.need_update = true →
      packet_task reg ctx toLen send =
        ⟨(if send ctx.output_packet = some (toLen ctx.output_packet) then 3 else 4),
          some ctx.output_packet, false⟩)
    ∧ (reg.need_update = false → reg.exec_order = [] →
      packet_task reg ctx toLen send =
        ⟨(if send ctx.output_packet = some (toLen ctx.output_packet) then 0 else 1),
          some ctx.output_packet, false⟩) := by
  intro T U reg ctx toLen send
  constructor
  · intro hup
    simp only [packet_task, switcher_states, PacketStateFull.all, List.filter,
      packet_task_go, run_hooks, hup, if_true, PacketContext.set_state]
    cases h : send ctx.output_packet with
    | none => simp [h]
    | some n =>
      by_cases hn : n = toLen ctx.output_packet <;> simp [h, hn]
  · intro hup hord
    simp only [packet_task, switcher_states, PacketStateFull.all, List.filter,
      packet_task_go, run_hooks, hup, run_hooks_order, hord, lookupA,
      PacketContext.set_state]
    norm_num
    cases h : send ctx.output_packet with
    | none => simp [h]
    | some n =>
      by_cases hn : n = toLen ctx.output_packet <;> simp [h, hn]

/-- C4 amended, witness: both branches applied at concrete registries,
context and output port. -/
theorem c4_drop_counting_amended_witness :
    packet_task c4_registry c4_ctx c4_toLen c4_send_ok = ⟨3, some 7, false⟩
    ∧ packet_task c4_empty_registry c4_ctx c4_toLen c4_send_ok = ⟨0, some 7, false⟩ :=
  ⟨by simpa using (c4_drop_counting_amended Nat Nat c4_registry c4_ctx c4_toLen c4_send_ok).1 rfl,
   by simpa using (c4_drop_counting_amended Nat Nat c4_empty_registry c4_ctx c4_toLen c4_send_ok).2 rfl rfl⟩

/-- C5: the `PacketState` declaration of `src/src/core/state.rs`
enumerates, restarted from the beginning, exactly `Received`,
`Prepared`, `PostPrepared` in this declared order — and nothing else:
the enumeration is exhaustive, so the declared state set contains no
`Failure` variant, although `hook_registry.rs` (lines 210, 293) and
`state_switcher.rs` (lines 93-94) reference `PacketState::Failure`. -/
theorem c5_packet_state_enumeration :
    PacketState.all = [.Received, .Prepared, .PostPrepared]
    ∧ ∀ s : PacketState, s ∈ PacketState.all := by
  refine ⟨rfl, ?_⟩
  intro s
  cases s <;> simp [PacketState.all]

/-- C6 counterexample: with a single pool whose SELECT fails, `sync`
does not return normally to its caller — `self.pool_sync(pool).unwrap()`
panics on the propagated backend error. -/
theorem c6_sync_panics_counterexample :
    (sync c6_oracle c6_storage c6_disk).isNormal = false
    ∧ sync c6_oracle c6_storage c6_disk = .panicked "select failed" :=
  ⟨rfl, rfl⟩

/-- C6 amended: a backend error inside a sync pass is not contained:
`pool_sync` propagates the error (or panics itself on a failed INSERT)
and `sync` unwraps its result, so whenever the SELECT of any pool
fails, `sync` panics instead of returning normally. -/
theorem c6_sync_error_propagates_amended :
    ∀ (V : Type) (σ : RuntimeStorage V) (disk : Disk) (oracle : DbOracle),
    (∃ p ∈ σ.pools, oracle.select_fails p.name = true) →
    (sync oracle σ disk).isNormal = false := by
  intro V σ disk oracle h
  rcases sync_go_not_ok_of_select_fails oracle σ.index σ.pools disk [] [] [] h with ⟨e, he⟩
  simp [sync, he, SyncOutcome.isNormal]

/-- C6 amended, witness: applied at the concrete one-pool storage with
a failing SELECT. -/
theorem c6_sync_error_propagates_amended_witness :
    (sync c6_oracle c6_storage c6_disk).isNormal = false :=
  c6_sync_error_propagates_amended Nat c6_storage c6_disk c6_oracle
    ⟨c6_pool, by simp [c6_storage], rfl⟩

/-- C7 counterexample: a pool with an evict-everything filter.  The
first sync aligns disk with memory (one INSERT) and then purges the
entry from memory and the index.  The second sync, with no intervening
user mutation, issues a DELETE for the purged id, so it is not free of
inserts and deletes as the claim requires. -/
theorem c7_second_sync_deletes_counterexample :
    sync honestOracle c7_storage c7_disk =
      .normal c7_storage2 c7_disk2 [DbOp.insertRow "p" 1]
    ∧ sync honestOracle c7_storage2 c7_disk2 =
      .normal c7_storage2 [("p", [])] [DbOp.deleteRows "p" [1]] := by
  constructor
  · rfl
  · rfl

/-- C7 amended: after a sync pass in which every backend operation
succeeds (and each pool's runtime ids are indexed to that pool), the set
of ids on disk in each pool's table equals the set of ids that were in
that pool's in-memory map prior to the pass.  Running sync a second time
immediately afterwards performs no inserts and no deletes provided the
first pass's purge evicted nothing — in particular when the pools have
no filters, in which case the second sync issues an empty operation list
and leaves storage and disk unchanged. -/
theorem c7_sync_id_sets_amended :
    ∀ (V : Type) (σ : RuntimeStorage V) (disk : Disk),
    (σ.pools.map (fun p => p.name)).Nodup →
    (∀ p ∈ σ.pools, ∀ er ∈ p.runtime, lookupA er.1 σ.index = some p.name) →
    ∃ σ2 disk2 ops,
      sync honestOracle σ disk = .normal σ2 disk2 ops
      ∧ (∀ p ∈ σ.pools, ∀ id, id ∈ disk_table disk2 p.name ↔ id ∈ p.runtime.map (fun e => e.1))
      ∧ ((∀ p ∈ σ.pools, p.filters = []) →
          σ2 = σ ∧ sync honestOracle σ2 disk2 = .normal σ2 disk2 []) := by
  intro V σ disk hnd hidx
  rcases sync_go_honest σ.index σ.pools disk [] [] [] hidx hnd with
    ⟨pools2, disk2, removed2, ops2, heq, hmem, hother, hnofil⟩
  refine ⟨⟨pools2, σ.index.filter (fun e => !removed2.contains e.1)⟩, disk2, ops2, ?_, hmem, ?_⟩
  · rw [sync, heq]
  · intro hfil
    rcases hnofil hfil with ⟨hp2, hr2⟩
    have hpools : pools2 = σ.pools := by rw [hp2]; rfl
    have hindex : σ.index.filter (fun e => !removed2.contains e.1) = σ.index := by
      rw [hr2]
      exact List.filter_eq_self.mpr (fun a _ => rfl)
    have hσ2 : (⟨pools2, σ.index.filter (fun e => !removed2.contains e.1)⟩ : RuntimeStorage V) = σ := by
      rw [hpools, hindex]
    constructor
    · exact hσ2
    · rw [hσ2]
      have hnoop := sync_go_noop σ.index σ.pools disk2 [] [] [] hidx
        (fun p hp id => hmem p hp id) hfil
      rw [sync, hnoop]
      show SyncOutcome.normal
          ⟨[] ++ σ.pools, σ.index.filter (fun e => !(List.contains [] e.1))⟩ disk2 [] =
        SyncOutcome.normal σ disk2 []
      have hfid : σ.index.filter (fun e => !(List.contains [] e.1)) = σ.index :=
        List.filter_eq_self.mpr (fun a _ => rfl)
      rw [List.nil_append, hfid]

/-- C7 amended, witness: applied to a one-pool, filterless storage. -/
theorem c7_sync_id_sets_amended_witness :
    ∃ σ2 disk2 ops,
      sync honestOracle c7b_storage c7b_disk = .normal σ2 disk2 ops
      ∧ (∀ p ∈ c7b_storage.pools, ∀ id,
          id ∈ disk_table disk2 p.name ↔ id ∈ p.runtime.map (fun e => e.1))
      ∧ ((∀ p ∈ c7b_storage.pools, p.filters = []) →
          σ2 = c7b_storage ∧ sync honestOracle σ2 disk2 = .normal σ2 disk2 []) :=
  c7_sync_id_sets_amended Nat c7b_storage c7b_disk (by decide)
    (by
      intro p hp er her
      rcases List.mem_singleton.mp hp with rfl
      rcases List.mem_singleton.mp her with rfl
      rfl)

/-- C8 counterexample: the options block `[1, 2, 0]` declares a
`SubnetMask` option of length 2 with only one byte remaining;
`data.drain(0..len)` panics, so parsing crashes instead of returning an
error or a truncated result as the claim requires. -/
theorem c8_overlong_option_panics_counterexample :
    dhcp_options_from [1, 2, 0] = .panic "drain range end out of bounds" := by
  simp [dhcp_options_from, dhcp_options_go]

/-- C8 amended: an options block terminated by a bare 255 code parses
successfully (to the empty option map when nothing precedes it), but
parsing is not total: a trailing non-pad, non-end code with no length
byte panics in `Vec::remove`, and an option whose declared length
exceeds the remaining bytes panics in `Vec::drain` — neither is
reported as an error value or truncated. -/
theorem c8_options_parse_amended :
    (∀ tail : List Nat, dhcp_options_from (255 :: tail) = .ok [])
    ∧ (∀ code : Nat, code ≠ 0 → code ≠ 255 →
        dhcp_options_from [code] = .panic "removal index out of bounds")
    ∧ (∀ (code len : Nat) (rest : List Nat), code ≠ 0 → code ≠ 255 →
        rest.length < len →
        dhcp_options_from (code :: len :: rest) =
          .panic "drain range end out of bounds") := by
  refine ⟨?_, ?_, ?_⟩
  · intro tail
    rw [dhcp_options_from, dhcp_options_go.eq_def]
    norm_num
  · intro code h0 h255
    simp [dhcp_options_from, dhcp_options_go, h0, h255]
  · intro code len rest h0 h255 hlen
    simp [dhcp_options_from, dhcp_options_go, h0, h255, hlen]

/-- C8 amended, witness: the three branches applied at concrete byte
sequences. -/
theorem c8_options_parse_amended_witness :
    dhcp_options_from (255 :: [7, 7]) = .ok []
    ∧ dhcp_options_from [12] = .panic "removal index out of bounds"
    ∧ dhcp_options_from (1 :: 2 :: [0]) = .panic "drain range end out of bounds" :=
  ⟨c8_options_parse_amended.1 [7, 7],
   c8_options_parse_amended.2.1 12 (by decide) (by decide),
   c8_options_parse_amended.2.2 1 2 [0] (by decide) (by decide) (by decide)⟩

/-- C9 counterexample: for an id absent from the global index,
`RuntimeStorage::get` does not return an error value: `index.get(&uid).unwrap()`
panics. -/
theorem c9_get_unknown_id_panics_counterexample :
    RuntimeStorage.get c9_storage 5 = .panic
    ∧ (RuntimeStorage.get c9_storage 5).isErrValue = false := by
  decide

/-- C9 amended: `get` panics when the id is absent from the global
index (and when the index names a missing pool); it returns an error
value only when the id is indexed to an existing pool whose in-memory
map lacks the entity. -/
theorem c9_get_behavior_amended :
    ∀ (V : Type) (σ : RuntimeStorage V) (uid : Nat),
    (lookupA uid σ.index = none → RuntimeStorage.get σ uid = .panic)
    ∧ (∀ pn pool, lookupA uid σ.index = some pn →
        poolsFind σ.pools pn = some pool →
        lookupA uid pool.runtime = none →
        RuntimeStorage.get σ uid = .err "No current data for given id...") := by
  intro V σ uid
  constructor
  · intro h
    simp [RuntimeStorage.get, h]
  · intro pn pool h1 h2 h3
    simp [RuntimeStorage.get, h1, h2, h3]

/-- C9 amended, witness: both branches applied at concrete storages. -/
theorem c9_get_behavior_amended_witness :
    RuntimeStorage.get c9_storage 5 = .panic
    ∧ RuntimeStorage.get c9_storage2 5 = .err "No current data for given id..." :=
  ⟨(c9_get_behavior_amended Nat c9_storage 5).1 rfl,
   (c9_get_behavior_amended Nat c9_storage2 5).2 "p" ⟨"p", [], [], "s"⟩ rfl rfl rfl⟩

/-- C10: `store` registers the freshly drawn uid in the global index,
mapped to the pool's name, before delegating to the pool's `insert`;
when the pool already holds an entity under the id of the stored data,
`store` returns the insert error, yet the returned storage's index
retains the new uid-to-pool-name mapping — the state is not left
unchanged on error. -/
theorem c10_store_index_retained :
    ∀ (V : Type) (S : StorableImpl V) (σ : RuntimeStorage V) (data : V)
    (pool_name : String) (uid : Nat) (pool : DataPool V),
    poolsFind σ.pools pool_name = some pool →
    lookupA uid σ.index = none →
    containsKeyA (S.id (S.set_uid data uid)) pool.runtime = true →
    RuntimeStorage.store S σ data pool_name uid =
      .err "Id already in use" ⟨σ.pools, insertA σ.index uid pool.name⟩
    ∧ lookupA uid (insertA σ.index uid pool.name) = some pool.name := by
  intro V S σ data pool_name uid pool hfind hfresh hcoll
  rcases (containsKeyA_exists _ _).mp hcoll with ⟨v, hv⟩
  constructor
  · simp [RuntimeStorage.store, hfind, DataPool.insert, hv]
  · exact lookupA_insertA_self _ _ _

/-- C10 witness: storing into a pool that already holds an entity under
the drawn uid 5 errs but leaves `5 -> p` in the index. -/
theorem c10_store_index_retained_witness :
    RuntimeStorage.store c10_storable c10_storage 0 "p" 5 =
      .err "Id already in use" ⟨c10_storage.pools, insertA c10_storage.index 5 c10_pool.name⟩
    ∧ lookupA 5 (insertA c10_storage.index 5 c10_pool.name) = some c10_pool.name :=
  c10_store_index_retained Nat c10_storable c10_storage 0 "p" 5 c10_pool
    rfl rfl rfl

end FrozenCore
